import Mathlib

/-! TvlqrControl: a time-varying LQR trajectory-tracking controller.

Shallow embedding of `src/controllers/tvlqr/TvlqrControl.cpp`.

Conventions of the embedding.

* C++ `double` is the exact rational field `ℚ` (every finite double is a rational
  number; rounding of the arithmetic is outside the model).  `int64_t` is `ℤ`, with the
  one subtraction of the file (`GetTNow`) reduced to the signed 64-bit range.
* `Eigen::VectorXd` is `List ℚ`, `Eigen::MatrixXd` a list of rows, `Eigen::VectorXi`
  is `List ℤ`.  `v(i)` reads with `List.getD v i 0`, `v(i) = x` writes with `List.set`.
* The object `TvlqrControl` is a record; a member function takes the record and
  returns the updated record (explicit state passing).
* `Trajectory` and `ServoConverter` are declared outside this file; they are records
  of the member functions the controller calls.
* Free functions defined outside this file (`PoseMsgToStateEstimatorVector`,
  `bot_quat_to_roll_pitch_yaw`, `rotz`, `AngleUnwrap`) are the fields of `Helpers`,
  a parameter of every operation.
* `GetTimestampNow()` reads the system clock.  The clock is an oracle
  `clock : ℕ → ℤ` (the `k`-th reading, in microseconds) and a cursor `k : ℕ` counting
  the readings taken so far; an operation that reads the clock returns the advanced
  cursor.
* `GetControl` calls itself on the horizon-exceeded branch.  The embedding carries a
  fuel argument bounding the nesting depth of calls and returns `none` when the
  fuel is used up.
-/

namespace Tvlqr

/-! ## Data model -/

/-- Dynamically sized vector of doubles (`Eigen::VectorXd`). -/
abbrev VectorXd := List ℚ

/-- Dynamically sized matrix of doubles (`Eigen::MatrixXd`), as the list of its rows. -/
abbrev MatrixXd := List (List ℚ)

/-- Dynamically sized vector of ints (`Eigen::VectorXi`). -/
abbrev VectorXi := List ℤ

/-- Fixed 3x3 matrix of doubles (`Eigen::Matrix3d`), entry `M i j`. -/
abbrev Matrix3d := Fin 3 → Fin 3 → ℚ

/-- The pose message `mav_pose_t`: a timestamp and five arrays of doubles. -/
structure mav_pose_t where
  utime : ℤ
  pos : ℚ × ℚ × ℚ
  vel : ℚ × ℚ × ℚ
  orientation : ℚ × ℚ × ℚ × ℚ
  rotation_rate : ℚ × ℚ × ℚ
  accel : ℚ × ℚ × ℚ

/-- The interface of class `Trajectory` that the controller uses. -/
structure Trajectory where
  IsTimeInvariant : Bool
  GetMaxTime : ℚ
  GetState : ℚ → VectorXd
  GetGainMatrix : ℚ → MatrixXd
  GetUCommand : ℚ → VectorXd

/-- The interface of class `ServoConverter` that the controller uses. -/
structure ServoConverter where
  RadiansToServoCommands : VectorXd → VectorXi
  GetTrimCommands : VectorXi

/-- Free functions called by the controller and defined outside its file.
`PoseMsgToStateEstimatorVector` is called with one argument (line 96) and with two
(line 123); the two call shapes are two fields. -/
structure Helpers where
  PoseMsgToStateEstimatorVector : mav_pose_t → VectorXd
  PoseMsgToStateEstimatorVectorMz : mav_pose_t → Matrix3d → VectorXd
  bot_quat_to_roll_pitch_yaw : ℚ × ℚ × ℚ × ℚ → ℚ × ℚ × ℚ
  rotz : ℚ → Matrix3d
  AngleUnwrap : ℚ → ℚ → ℚ

/-- The member variables of `TvlqrControl`.  `current_trajectory_` is a pointer that
may be null (`none`). -/
structure TvlqrControl where
  current_trajectory_ : Option Trajectory
  state_initialized_ : Bool
  t0_ : ℤ
  last_ti_state_estimator_reset_ : ℤ
  converter_ : ServoConverter
  stable_controller_ : Trajectory
  initial_state_ : VectorXd
  last_state_ : VectorXd
  Mz_ : Matrix3d

/-! ## Eigen arithmetic used by the control law -/

/-- Coefficient-wise difference `a - b` of two vectors. -/
def vsub (a b : VectorXd) : VectorXd := List.zipWith (fun x y => x - y) a b

/-- Coefficient-wise sum `a + b` of two vectors. -/
def vadd (a b : VectorXd) : VectorXd := List.zipWith (fun x y => x + y) a b

/-- Scalar multiple `c * a` of a vector. -/
def vscale (c : ℚ) (a : VectorXd) : VectorXd := a.map (fun x => c * x)

/-- Inner product of a matrix row with a vector. -/
def dot (row v : VectorXd) : ℚ := (List.zipWith (fun x y => x * y) row v).sum

/-- Matrix-vector product `K * v`. -/
def mulVec (K : MatrixXd) (v : VectorXd) : VectorXd := K.map (fun row => dot row v)

/-- Reduction of an integer to the signed 64-bit range (two's complement). -/
def wrapInt64 (x : ℤ) : ℤ := (x + 2 ^ 63) % 2 ^ 64 - 2 ^ 63

/-! ## The member functions -/

/-- Constructor (lines 10-17).  `initial_state_` and `last_state_` are
default-constructed (empty); `Mz_` is left with indeterminate content, passed as
`Mz_indeterminate`. -/
def TvlqrControl.new (converter : ServoConverter) (stable_controller : Trajectory)
    (Mz_indeterminate : Matrix3d) : TvlqrControl :=
  { current_trajectory_ := none
    state_initialized_ := false
    t0_ := 0
    last_ti_state_estimator_reset_ := 0
    converter_ := converter
    stable_controller_ := stable_controller
    initial_state_ := []
    last_state_ := []
    Mz_ := Mz_indeterminate }

/-- `TvlqrControl::SetTrajectory` (lines 20-26). -/
def SetTrajectory (self : TvlqrControl) (trajectory : Trajectory) : TvlqrControl :=
  { self with current_trajectory_ := some trajectory, state_initialized_ := false }

/-- `TvlqrControl::InitializeState` (lines 94-111); reads the clock once. -/
def InitializeState (h : Helpers) (clock : ℕ → ℤ) (self : TvlqrControl) (k : ℕ)
    (msg : mav_pose_t) : TvlqrControl × ℕ :=
  let initial_state := h.PoseMsgToStateEstimatorVector msg
  let rpy := h.bot_quat_to_roll_pitch_yaw msg.orientation
  ({ self with
      initial_state_ := initial_state
      last_state_ := initial_state
      Mz_ := h.rotz (-rpy.2.2)
      t0_ := clock k
      state_initialized_ := true }, k + 1)

/-- `TvlqrControl::GetStateMinusInit` (lines 113-129). -/
def GetStateMinusInit (h : Helpers) (self : TvlqrControl) (msg : mav_pose_t) : VectorXd :=
  let msg2 : mav_pose_t :=
    { msg with
        pos := (msg.pos.1 - self.initial_state_.getD 0 0,
                msg.pos.2.1 - self.initial_state_.getD 1 0,
                msg.pos.2.2 - self.initial_state_.getD 2 0) }
  h.PoseMsgToStateEstimatorVectorMz msg2 self.Mz_

/-- `TvlqrControl::GetTNow` (lines 131-138); reads the clock once. -/
def GetTNow (clock : ℕ → ℤ) (self : TvlqrControl) (k : ℕ) : ℚ × ℕ :=
  let delta_t : ℤ := wrapInt64 (clock k - self.t0_)
  ((delta_t : ℚ) / 1000000, k + 1)

/-- `TvlqrControl::GetControl` (lines 28-92).  The result is the returned command,
the controller after the call and the clock cursor after the call; `none` when the
nesting of calls exceeds `fuel`. -/
def GetControl (h : Helpers) (clock : ℕ → ℤ) :
    ℕ → TvlqrControl → ℕ → mav_pose_t → Option (VectorXi × TvlqrControl × ℕ)
  | 0, _, _, _ => none
  | fuel + 1, self, k, msg =>
    match self.current_trajectory_ with
    | none => some (self.converter_.GetTrimCommands, self, k)
    | some current_trajectory =>
      let init := if self.state_initialized_ = false then InitializeState h clock self k msg
        else (self, k)
      let state_minus_init := GetStateMinusInit h init.1 msg
      let s3 := state_minus_init.set 3
        (h.AngleUnwrap (state_minus_init.getD 3 0) (init.1.last_state_.getD 3 0))
      let s4 := s3.set 4 (h.AngleUnwrap (s3.getD 4 0) (init.1.last_state_.getD 4 0))
      let s5 := s4.set 5 (h.AngleUnwrap (s4.getD 5 0) (init.1.last_state_.getD 5 0))
      let self2 : TvlqrControl := { init.1 with last_state_ := s5 }
      let tnow := if current_trajectory.IsTimeInvariant then ((0 : ℚ), init.2)
        else GetTNow clock self2 init.2
      let t_along_trajectory := tnow.1
      if t_along_trajectory ≤ current_trajectory.GetMaxTime then
        let x0 := current_trajectory.GetState t_along_trajectory
        let gain_matrix := current_trajectory.GetGainMatrix t_along_trajectory
        let state_error := vsub s5 x0
        let additional_control_action := mulVec gain_matrix state_error
        let command_in_rad :=
          vadd (current_trajectory.GetUCommand t_along_trajectory) additional_control_action
        some (self2.converter_.RadiansToServoCommands command_in_rad, self2, tnow.2)
      else
        GetControl h clock fuel (SetTrajectory self2 self2.stable_controller_) tnow.2 msg

/-! ## Local variables of one pass through `GetControl`

The values below are the locals of `GetControl` on its first pass (before any
re-entry), named so that statements can refer to them. -/

/-- Lines 39-42: the controller and clock cursor after the conditional call of
`InitializeState`. -/
def frameInit (h : Helpers) (clock : ℕ → ℤ) (self : TvlqrControl) (k : ℕ)
    (msg : mav_pose_t) : TvlqrControl × ℕ :=
  if self.state_initialized_ = false then InitializeState h clock self k msg else (self, k)

/-- Lines 44-50: `state_minus_init` after the three angle unwrappings, for the
controller `c` that holds the captured frame. -/
def unwrappedState (h : Helpers) (c : TvlqrControl) (msg : mav_pose_t) : VectorXd :=
  let state_minus_init := GetStateMinusInit h c msg
  let s3 := state_minus_init.set 3
    (h.AngleUnwrap (state_minus_init.getD 3 0) (c.last_state_.getD 3 0))
  let s4 := s3.set 4 (h.AngleUnwrap (s3.getD 4 0) (c.last_state_.getD 4 0))
  s4.set 5 (h.AngleUnwrap (s4.getD 5 0) (c.last_state_.getD 5 0))

/-- Line 52: the controller after `last_state_ = state_minus_init` on the first pass. -/
def passState (h : Helpers) (clock : ℕ → ℤ) (self : TvlqrControl) (k : ℕ)
    (msg : mav_pose_t) : TvlqrControl :=
  { (frameInit h clock self k msg).1 with
      last_state_ := unwrappedState h (frameInit h clock self k msg).1 msg }

/-- Lines 54-61: `t_along_trajectory` on the first pass for the active trajectory
`traj`, with the clock cursor after it. -/
def tAlong (h : Helpers) (clock : ℕ → ℤ) (traj : Trajectory) (self : TvlqrControl) (k : ℕ)
    (msg : mav_pose_t) : ℚ × ℕ :=
  if traj.IsTimeInvariant then ((0 : ℚ), (frameInit h clock self k msg).2)
  else GetTNow clock (passState h clock self k msg) (frameInit h clock self k msg).2

/-- Lines 65-79: `command_in_rad` for trajectory `traj` queried at time `t` and the
frame-relative state `s`. -/
def commandInRad (traj : Trajectory) (t : ℚ) (s : VectorXd) : VectorXd :=
  vadd (traj.GetUCommand t) (mulVec (traj.GetGainMatrix t) (vsub s (traj.GetState t)))

/-- The controller that `InitializeState` followed by the unwrapping leaves, for a
pose `msg` and the clock reading `t0`: every field the frame capture writes depends
on the pose and the reading only. -/
def capturedControl (h : Helpers) (self : TvlqrControl) (t0 : ℤ) (msg : mav_pose_t) :
    TvlqrControl :=
  { self with
      initial_state_ := h.PoseMsgToStateEstimatorVector msg
      last_state_ := unwrappedState h
        { self with
            initial_state_ := h.PoseMsgToStateEstimatorVector msg
            last_state_ := h.PoseMsgToStateEstimatorVector msg
            Mz_ := h.rotz (-(h.bot_quat_to_roll_pitch_yaw msg.orientation).2.2) } msg
      Mz_ := h.rotz (-(h.bot_quat_to_roll_pitch_yaw msg.orientation).2.2)
      t0_ := t0
      state_initialized_ := true }

/-! ## Concrete collaborators for closed examples -/

/-- The double nearest to pi (`M_PI`), an exact rational. -/
def M_PI : ℚ := 884279719003555 / 281474976710656

/-- Modelled from the spec: `AngleUnwrap` is declared outside this file.  The spec
(4.1 step 3) has it return the angle equivalent to `angle` (differing by a multiple of
the full turn `turn`) that is numerically closest to `prev`. -/
def specAngleUnwrap (turn : ℚ) (angle prev : ℚ) : ℚ :=
  angle - turn * round ((angle - prev) / turn)

/-- Modelled from the spec: the contract of `AngleUnwrap` in the spec's words: the
result differs from the raw angle by a whole number of full turns and is within half
a turn of the previous angle. -/
def UnwrapContract (turn : ℚ) (f : ℚ → ℚ → ℚ) : Prop :=
  ∀ angle prev : ℚ, (∃ n : ℤ, f angle prev = angle + n * turn) ∧ |f angle prev - prev| ≤ turn / 2

/-- Modelled from the spec: `bot_quat_to_roll_pitch_yaw`, `rotz` and
`PoseMsgToStateEstimatorVector` are declared outside this file.  The state vector is
position then roll, pitch, yaw (spec 3: six components).  With a rotation the
position is rotated and the heading is turned by the rotation (spec 4.1 step 2).
Trigonometry is linearised (sin a = a, cos a = 1), which is exact for the zero angle
and the identity quaternion. -/
def specHelpers : Helpers :=
  let rpy : ℚ × ℚ × ℚ × ℚ → ℚ × ℚ × ℚ := fun q =>
    (2 * (q.1 * q.2.1 + q.2.2.1 * q.2.2.2),
     2 * (q.1 * q.2.2.1 - q.2.2.2 * q.2.1),
     2 * (q.1 * q.2.2.2 + q.2.1 * q.2.2.1))
  { PoseMsgToStateEstimatorVector := fun m =>
      [m.pos.1, m.pos.2.1, m.pos.2.2,
       (rpy m.orientation).1, (rpy m.orientation).2.1, (rpy m.orientation).2.2]
    PoseMsgToStateEstimatorVectorMz := fun m M =>
      [M 0 0 * m.pos.1 + M 0 1 * m.pos.2.1 + M 0 2 * m.pos.2.2,
       M 1 0 * m.pos.1 + M 1 1 * m.pos.2.1 + M 1 2 * m.pos.2.2,
       M 2 0 * m.pos.1 + M 2 1 * m.pos.2.1 + M 2 2 * m.pos.2.2,
       (rpy m.orientation).1, (rpy m.orientation).2.1, (rpy m.orientation).2.2 + M 1 0]
    bot_quat_to_roll_pitch_yaw := rpy
    rotz := fun a i j =>
      if i = j then 1 else if i = 1 ∧ j = 0 then a else if i = 0 ∧ j = 1 then -a else 0
    AngleUnwrap := specAngleUnwrap (2 * M_PI) }

/-- A converter for examples: rounds each command down to an integer; trim is `[1500]`. -/
def exampleConverter : ServoConverter :=
  { RadiansToServoCommands := fun v => v.map (fun x => ⌊x⌋)
    GetTrimCommands := [1500] }

/-- A trajectory for examples with the given time-invariance flag and maximum time:
zero nominal state, one command whose nominal value is the query time, zero gain. -/
def exampleTrajectory (ti : Bool) (maxTime : ℚ) : Trajectory :=
  { IsTimeInvariant := ti
    GetMaxTime := maxTime
    GetState := fun _ => [0, 0, 0, 0, 0, 0]
    GetGainMatrix := fun _ => [[0, 0, 0, 0, 0, 0]]
    GetUCommand := fun t => [t] }

/-- A level pose at position (1, 2, 3) with the identity orientation. -/
def examplePose : mav_pose_t :=
  { utime := 0, pos := (1, 2, 3), vel := (0, 0, 0), orientation := (1, 0, 0, 0),
    rotation_rate := (0, 0, 0), accel := (0, 0, 0) }

/-- A clock for examples: the `k`-th reading is `k` seconds, in microseconds. -/
def exampleClock : ℕ → ℤ := fun k => 1000000 * (k : ℤ)

/-- A freshly constructed controller for examples. -/
def exampleControl (stable : Trajectory) : TvlqrControl :=
  TvlqrControl.new exampleConverter stable (fun _ _ => 0)

/-- An example controller: constructed with the stabilizing trajectory `stable`, then
given the active trajectory `active`. -/
def exampleTracking (active stable : Trajectory) : TvlqrControl :=
  SetTrajectory (exampleControl stable) active

/-- A trajectory for examples with a non-zero gain: nominal state (1,1,1,0,0,0), one
command with nominal value 5, gain row (1,2,3,0,0,0); time-invariant, maximum time 0. -/
def exampleGainTrajectory : Trajectory :=
  { IsTimeInvariant := true
    GetMaxTime := 0
    GetState := fun _ => [1, 1, 1, 0, 0, 0]
    GetGainMatrix := fun _ => [[1, 2, 3, 0, 0, 0]]
    GetUCommand := fun _ => [5] }

/-- The example pose with the orientation `(1, roll / 2, 0, 0)`, which `specHelpers`
converts to the roll angle `roll` (pitch and yaw 0). -/
def exampleRolledPose (roll : ℚ) : mav_pose_t :=
  { examplePose with orientation := (1, roll / 2, 0, 0) }

/-- The example pose rolled about the forward axis: the unit quaternion
`(3/5, 4/5, 0, 0)`, whose yaw and pitch are 0 and whose roll is not. -/
def exampleBankedPose : mav_pose_t :=
  { examplePose with orientation := (3 / 5, 4 / 5, 0, 0) }

/-- Modelled from the spec: the contract of `PoseMsgToStateEstimatorVector` (with
`rotz` and `bot_quat_to_roll_pitch_yaw`), declared outside this file.  The state vector
starts with the position (spec 3); under a rotation the position is rotated, so a
zero position stays zero; a rotation about the vertical axis leaves roll and pitch;
and under the rotation by the negative of the pose's own yaw the heading is zero
(spec 4.1 steps 1-2: a frame aligned with the initial heading). -/
def PoseContract (h : Helpers) : Prop :=
  (∀ m : mav_pose_t,
    ((h.PoseMsgToStateEstimatorVector m).getD 0 0, (h.PoseMsgToStateEstimatorVector m).getD 1 0,
      (h.PoseMsgToStateEstimatorVector m).getD 2 0) = m.pos) ∧
  (∀ (m : mav_pose_t) (M : Matrix3d), m.pos = (0, 0, 0) →
    (h.PoseMsgToStateEstimatorVectorMz m M).getD 0 0 = 0 ∧
    (h.PoseMsgToStateEstimatorVectorMz m M).getD 1 0 = 0 ∧
    (h.PoseMsgToStateEstimatorVectorMz m M).getD 2 0 = 0) ∧
  (∀ (m : mav_pose_t) (a : ℚ),
    (h.PoseMsgToStateEstimatorVectorMz m (h.rotz a)).getD 3 0
      = (h.bot_quat_to_roll_pitch_yaw m.orientation).1 ∧
    (h.PoseMsgToStateEstimatorVectorMz m (h.rotz a)).getD 4 0
      = (h.bot_quat_to_roll_pitch_yaw m.orientation).2.1) ∧
  (∀ m : mav_pose_t,
    (h.PoseMsgToStateEstimatorVectorMz m
      (h.rotz (-(h.bot_quat_to_roll_pitch_yaw m.orientation).2.2))).getD 5 0 = 0)

/-! ## Sequences of calls made by the caller -/

/-- One call made by the caller on the controller. -/
inductive Call where
  | setTrajectory (trajectory : Trajectory)
  | getControl (msg : mav_pose_t)

/-- The state of a run of calls: the controller, the clock cursor, and the history
flag `poseProcessed`: some `GetControl` call has got past the null-trajectory guard
(lines 30-33) since the most recent `SetTrajectory` call (since the construction when
there has been none). -/
structure RunState where
  control : TvlqrControl
  cursor : ℕ
  poseProcessed : Bool

/-- The effect of one call; `none` when a `GetControl` call does not return within
nesting depth `fuel`. -/
def stepCall (h : Helpers) (clock : ℕ → ℤ) (fuel : ℕ) (s : RunState) : Call → Option RunState
  | Call.setTrajectory trajectory =>
    some { control := SetTrajectory s.control trajectory, cursor := s.cursor,
           poseProcessed := false }
  | Call.getControl msg =>
    match GetControl h clock fuel s.control s.cursor msg with
    | none => none
    | some r =>
      some { control := r.2.1, cursor := r.2.2,
             poseProcessed := s.control.current_trajectory_.isSome || s.poseProcessed }

/-- The effect of a sequence of calls, first call first. -/
def runCalls (h : Helpers) (clock : ℕ → ℤ) (fuel : ℕ) : List Call → RunState → Option RunState
  | [], s => some s
  | c :: cs, s =>
    match stepCall h clock fuel s c with
    | none => none
    | some s1 => runCalls h clock fuel cs s1

/-- The run state immediately after construction, with clock cursor `k`. -/
def constructed (converter : ServoConverter) (stable_controller : Trajectory)
    (Mz_indeterminate : Matrix3d) (k : ℕ) : RunState :=
  { control := TvlqrControl.new converter stable_controller Mz_indeterminate, cursor := k,
    poseProcessed := false }

/-- Whether a call is a `SetTrajectory` call. -/
def Call.isSetTrajectory : Call → Bool
  | Call.setTrajectory _ => true
  | Call.getControl _ => false

/-- The call history read off the list of calls alone: given whether a trajectory is
set (`hasTrajectory`) and whether a pose has been processed since it was set (`seen`)
before the calls, whether a pose has been processed since the most recent
`SetTrajectory` after them.  A `GetControl` call made while no trajectory is set
returns at the guard and processes no pose. -/
def poseSinceSetTrajectory : Bool → Bool → List Call → Bool
  | _, seen, [] => seen
  | _, _, Call.setTrajectory _ :: cs => poseSinceSetTrajectory true false cs
  | hasTrajectory, seen, Call.getControl _ :: cs =>
    poseSinceSetTrajectory hasTrajectory (hasTrajectory || seen) cs

/-- The example pose moved to position (7, 8, 9). -/
def exampleMovedPose : mav_pose_t :=
  { examplePose with pos := (7, 8, 9) }

/-- A trajectory for examples with two commands and a full gain: nominal state
(1,1,1,0,0,0), nominal commands (5, 7), gain rows (1,2,3,4,5,6) and (0,0,0,1,0,0);
time-invariant, maximum time 0. -/
def exampleFeedbackTrajectory : Trajectory :=
  { IsTimeInvariant := true
    GetMaxTime := 0
    GetState := fun _ => [1, 1, 1, 0, 0, 0]
    GetGainMatrix := fun _ => [[1, 2, 3, 4, 5, 6], [0, 0, 0, 1, 0, 0]]
    GetUCommand := fun _ => [5, 7] }

/-- The example pose moved to position (7, 8, 9) with the orientation
`(1, roll / 2, 0, 0)`, which `specHelpers` converts to the roll angle `roll`. -/
def exampleMovedRolledPose (roll : ℚ) : mav_pose_t :=
  { examplePose with pos := (7, 8, 9), orientation := (1, roll / 2, 0, 0) }

/-! ## Theorems -/

/-- C1: with no trajectory set (`current_trajectory_` null), for every pose
`GetControl` returns exactly the converter's `GetTrimCommands()` and leaves the whole
controller (every member variable) and the clock cursor unchanged. -/
theorem GetControl_null_returns_trim (h : Helpers) (clock : ℕ → ℤ) (fuel : ℕ)
    (self : TvlqrControl) (k : ℕ) (msg : mav_pose_t)
    (hnull : self.current_trajectory_ = none) :
    GetControl h clock (fuel + 1) self k msg
      = some (self.converter_.GetTrimCommands, self, k) := by
  simp [GetControl, hnull]

/-- Witness for C1: a freshly constructed controller, which has no trajectory. -/
theorem GetControl_null_returns_trim_witness :
    (exampleControl (exampleTrajectory true 0)).current_trajectory_ = none ∧
    GetControl specHelpers exampleClock 1 (exampleControl (exampleTrajectory true 0)) 0
        examplePose
      = some ([1500], exampleControl (exampleTrajectory true 0), 0) :=
  ⟨rfl, GetControl_null_returns_trim specHelpers exampleClock 0
    (exampleControl (exampleTrajectory true 0)) 0 examplePose rfl⟩

/-- One pass of `GetControl` with a non-null trajectory, in terms of the locals of
the pass: either the command of the feedback law, or the re-entry after
`SetTrajectory(*stable_controller_)`. -/
theorem GetControl_pass (h : Helpers) (clock : ℕ → ℤ) (fuel : ℕ)
    (self : TvlqrControl) (k : ℕ) (msg : mav_pose_t) (traj : Trajectory)
    (hcur : self.current_trajectory_ = some traj) :
    GetControl h clock (fuel + 1) self k msg
      = if (tAlong h clock traj self k msg).1 ≤ traj.GetMaxTime then
          some (self.converter_.RadiansToServoCommands
                  (commandInRad traj (tAlong h clock traj self k msg).1
                    (unwrappedState h (frameInit h clock self k msg).1 msg)),
                passState h clock self k msg, (tAlong h clock traj self k msg).2)
        else
          GetControl h clock fuel
            (SetTrajectory (passState h clock self k msg) self.stable_controller_)
            (tAlong h clock traj self k msg).2 msg := by
  have hconv : (frameInit h clock self k msg).1.converter_ = self.converter_ := by
    unfold frameInit InitializeState; split <;> rfl
  have hstab : (frameInit h clock self k msg).1.stable_controller_ = self.stable_controller_ := by
    unfold frameInit InitializeState; split <;> rfl
  rw [GetControl]
  simp only [hcur]
  unfold tAlong passState unwrappedState commandInRad frameInit at *
  simp only [hconv, hstab]

/-- A controller whose frame is not initialized calls `InitializeState` on the pass. -/
theorem frameInit_of_uninitialized (h : Helpers) (clock : ℕ → ℤ) (self : TvlqrControl)
    (k : ℕ) (msg : mav_pose_t) (hinit : self.state_initialized_ = false) :
    frameInit h clock self k msg = InitializeState h clock self k msg := by
  simp [frameInit, hinit]

/-- A controller whose frame is initialized keeps it on the pass and reads no clock. -/
theorem frameInit_of_initialized (h : Helpers) (clock : ℕ → ℤ) (self : TvlqrControl)
    (k : ℕ) (msg : mav_pose_t) (hinit : self.state_initialized_ = true) :
    frameInit h clock self k msg = (self, k) := by
  simp [frameInit, hinit]

/-- The time along a time-invariant trajectory is zero. -/
theorem tAlong_timeInvariant (h : Helpers) (clock : ℕ → ℤ) (traj : Trajectory)
    (self : TvlqrControl) (k : ℕ) (msg : mav_pose_t) (hTI : traj.IsTimeInvariant = true) :
    tAlong h clock traj self k msg = (0, (frameInit h clock self k msg).2) := by
  simp [tAlong, hTI]

/-- The pass of a controller whose frame is not initialized ends in `capturedControl`. -/
theorem passState_of_uninitialized (h : Helpers) (clock : ℕ → ℤ) (self : TvlqrControl)
    (k : ℕ) (msg : mav_pose_t) (hinit : self.state_initialized_ = false) :
    passState h clock self k msg = capturedControl h self (clock k) msg := by
  simp only [passState, frameInit_of_uninitialized h clock self k msg hinit]
  rfl

/-- `GetControl` on a controller whose frame is not initialized and whose active
trajectory is time-invariant with a non-negative maximum time: one pass, the command
of the feedback law at time 0, one clock reading. -/
theorem GetControl_fresh_timeInvariant (h : Helpers) (clock : ℕ → ℤ) (fuel : ℕ)
    (self : TvlqrControl) (k : ℕ) (msg : mav_pose_t) (traj : Trajectory)
    (hcur : self.current_trajectory_ = some traj)
    (hinit : self.state_initialized_ = false)
    (hTI : traj.IsTimeInvariant = true) (hmax : 0 ≤ traj.GetMaxTime) :
    GetControl h clock (fuel + 1) self k msg
      = some (self.converter_.RadiansToServoCommands
                (commandInRad traj 0 (capturedControl h self (clock k) msg).last_state_),
              capturedControl h self (clock k) msg, k + 1) := by
  rw [GetControl_pass h clock fuel self k msg traj hcur,
    tAlong_timeInvariant h clock traj self k msg hTI, if_pos hmax,
    passState_of_uninitialized h clock self k msg hinit,
    frameInit_of_uninitialized h clock self k msg hinit]
  rfl

/-- C6: `SetTrajectory(trajectory)` sets `current_trajectory_` to that trajectory and
`state_initialized_` to false and leaves the stabilizing trajectory, the converter,
the captured origin, the heading rotation, the start time and the previous frame
state (and the remaining member) unchanged. -/
theorem SetTrajectory_frame (self : TvlqrControl) (trajectory : Trajectory) :
    (SetTrajectory self trajectory).current_trajectory_ = some trajectory ∧
    (SetTrajectory self trajectory).state_initialized_ = false ∧
    (SetTrajectory self trajectory).stable_controller_ = self.stable_controller_ ∧
    (SetTrajectory self trajectory).converter_ = self.converter_ ∧
    (SetTrajectory self trajectory).initial_state_ = self.initial_state_ ∧
    (SetTrajectory self trajectory).Mz_ = self.Mz_ ∧
    (SetTrajectory self trajectory).t0_ = self.t0_ ∧
    (SetTrajectory self trajectory).last_state_ = self.last_state_ ∧
    (SetTrajectory self trajectory).last_ti_state_estimator_reset_
      = self.last_ti_state_estimator_reset_ :=
  ⟨rfl, rfl, rfl, rfl, rfl, rfl, rfl, rfl, rfl⟩

/-- C3: when the active trajectory's time-along-trajectory is strictly above its
`GetMaxTime()` and the stabilizing trajectory is time-invariant with
`GetMaxTime() >= 0`, one `GetControl(pose)` returns (with one re-entry) the same
command, and ends in the same active trajectory, initialization flag, captured origin,
heading rotation and previous frame state (and converter, stabilizing trajectory) as
`SetTrajectory(stabilizing)` followed by `GetControl(pose)` from the same starting
state; in each run `t0_` is the clock reading taken at the re-initialization. -/
theorem GetControl_horizon_switch_refines_manual (h : Helpers) (clock : ℕ → ℤ)
    (fuelA fuelB : ℕ) (self : TvlqrControl) (k : ℕ) (msg : mav_pose_t) (traj : Trajectory)
    (hcur : self.current_trajectory_ = some traj)
    (hexp : traj.GetMaxTime < (tAlong h clock traj self k msg).1)
    (hTI : self.stable_controller_.IsTimeInvariant = true)
    (hmax : 0 ≤ self.stable_controller_.GetMaxTime) :
    ∃ (cmd : VectorXi) (cA cB : TvlqrControl),
      GetControl h clock (fuelA + 2) self k msg
        = some (cmd, cA, (tAlong h clock traj self k msg).2 + 1) ∧
      GetControl h clock (fuelB + 1) (SetTrajectory self self.stable_controller_) k msg
        = some (cmd, cB, k + 1) ∧
      cA.current_trajectory_ = some self.stable_controller_ ∧
      cA.current_trajectory_ = cB.current_trajectory_ ∧
      cA.state_initialized_ = true ∧
      cA.state_initialized_ = cB.state_initialized_ ∧
      cA.initial_state_ = cB.initial_state_ ∧
      cA.Mz_ = cB.Mz_ ∧
      cA.last_state_ = cB.last_state_ ∧
      cA.converter_ = cB.converter_ ∧
      cA.stable_controller_ = cB.stable_controller_ ∧
      cA.t0_ = clock (tAlong h clock traj self k msg).2 ∧
      cB.t0_ = clock k := by
  have hconv : (passState h clock self k msg).converter_ = self.converter_ := by
    unfold passState frameInit InitializeState; split <;> rfl
  have hstab : (passState h clock self k msg).stable_controller_ = self.stable_controller_ := by
    unfold passState frameInit InitializeState; split <;> rfl
  have hA := GetControl_fresh_timeInvariant h clock fuelA
    (SetTrajectory (passState h clock self k msg) self.stable_controller_)
    (tAlong h clock traj self k msg).2 msg self.stable_controller_ rfl rfl hTI hmax
  have hB := GetControl_fresh_timeInvariant h clock fuelB
    (SetTrajectory self self.stable_controller_) k msg self.stable_controller_ rfl rfl hTI hmax
  refine ⟨_, capturedControl h
    (SetTrajectory (passState h clock self k msg) self.stable_controller_)
    (clock (tAlong h clock traj self k msg).2) msg, _, ?_, hB, ?_⟩
  · rw [GetControl_pass h clock (fuelA + 1) self k msg traj hcur, if_neg (not_le.mpr hexp), hA]
    simp only [SetTrajectory, hconv]
    rfl
  · exact ⟨rfl, rfl, rfl, rfl, rfl, rfl, rfl, hconv, hstab, rfl, rfl⟩

/-- Witness for C3: a time-varying trajectory with maximum time 0, one second after the
frame capture, and a time-invariant stabilizing trajectory. -/
theorem GetControl_horizon_switch_refines_manual_witness :
    ∃ (cmd : VectorXi) (cA cB : TvlqrControl),
      GetControl specHelpers exampleClock 2
          (exampleTracking (exampleTrajectory false 0) (exampleTrajectory true 0)) 0 examplePose
        = some (cmd, cA, 3) ∧
      GetControl specHelpers exampleClock 1
          (SetTrajectory (exampleTracking (exampleTrajectory false 0) (exampleTrajectory true 0))
            (exampleTrajectory true 0)) 0 examplePose
        = some (cmd, cB, 1) ∧
      cA.last_state_ = cB.last_state_ ∧ cA.t0_ = 2000000 ∧ cB.t0_ = 0 := by
  have ht : tAlong specHelpers exampleClock (exampleTrajectory false 0)
      (exampleTracking (exampleTrajectory false 0) (exampleTrajectory true 0)) 0 examplePose
      = (1, 2) := by
    simp [tAlong, frameInit, passState, GetTNow, wrapInt64, exampleTracking, exampleControl,
      TvlqrControl.new, SetTrajectory, InitializeState, exampleClock, exampleTrajectory]
  obtain ⟨cmd, cA, cB, hA, hB, -, -, -, -, -, -, hl, -, -, hA0, hB0⟩ :=
    GetControl_horizon_switch_refines_manual specHelpers exampleClock 0 0
      (exampleTracking (exampleTrajectory false 0) (exampleTrajectory true 0)) 0 examplePose
      (exampleTrajectory false 0) rfl (by rw [ht]; simp [exampleTrajectory]) rfl
      (by simp [exampleTracking, exampleControl, TvlqrControl.new, SetTrajectory,
        exampleTrajectory])
  rw [ht] at hA hA0
  exact ⟨cmd, cA, cB, hA, hB, hl, by simpa [exampleClock] using hA0,
    by simpa [exampleClock] using hB0⟩

/-- A time-invariant trajectory with a negative maximum time, active and stabilizing
at once, makes every pass take the horizon-exceeded branch: no fuel suffices. -/
theorem GetControl_diverges (h : Helpers) (clock : ℕ → ℤ) (msg : mav_pose_t)
    (T : Trajectory) (hTI : T.IsTimeInvariant = true) (hneg : T.GetMaxTime < 0) :
    ∀ (fuel : ℕ) (c : TvlqrControl) (k : ℕ), c.current_trajectory_ = some T →
      c.stable_controller_ = T → GetControl h clock fuel c k msg = none := by
  intro fuel
  induction fuel with
  | zero => intro c k _ _; rfl
  | succ n ih =>
    intro c k hcur hstab
    rw [GetControl_pass h clock n c k msg T hcur, tAlong_timeInvariant h clock T c k msg hTI,
      if_neg (not_le.mpr hneg)]
    exact ih _ _ (by rw [hstab]; rfl) (by
      have : (passState h clock c k msg).stable_controller_ = c.stable_controller_ := by
        unfold passState frameInit InitializeState; split <;> rfl
      simpa [SetTrajectory, hstab] using this)

/-- C9 (as stated, refuted): a controller whose stabilizing trajectory is
time-invariant but has `GetMaxTime() = -1`; the re-entered computation takes the
horizon-exceeded branch again, and `GetControl` returns for no nesting depth. -/
theorem GetControl_timeInvariant_stabilizer_may_not_terminate :
    (exampleTracking (exampleTrajectory true (-1))
        (exampleTrajectory true (-1))).stable_controller_.IsTimeInvariant = true ∧
    ¬ ∃ fuel : ℕ, (GetControl specHelpers exampleClock fuel
        (exampleTracking (exampleTrajectory true (-1)) (exampleTrajectory true (-1)))
        0 examplePose).isSome = true := by
  refine ⟨rfl, ?_⟩
  rintro ⟨fuel, hf⟩
  rw [GetControl_diverges specHelpers exampleClock examplePose (exampleTrajectory true (-1)) rfl
    (by simp [exampleTrajectory]) fuel _ 0 rfl rfl] at hf
  simp at hf

/-- With a time-invariant stabilizing trajectory of non-negative maximum time every
`GetControl` call returns within nesting depth 2, with the same result for every
larger depth. -/
theorem GetControl_returns_of_stabilizer (h : Helpers) (clock : ℕ → ℤ)
    (self : TvlqrControl) (k : ℕ) (msg : mav_pose_t)
    (hTI : self.stable_controller_.IsTimeInvariant = true)
    (hmax : 0 ≤ self.stable_controller_.GetMaxTime) :
    ∃ r, ∀ fuel : ℕ, GetControl h clock (fuel + 2) self k msg = some r := by
  cases hcur : self.current_trajectory_ with
  | none =>
    exact ⟨(self.converter_.GetTrimCommands, self, k), fun fuel => by
      simp [GetControl, hcur]⟩
  | some traj =>
    by_cases hle : (tAlong h clock traj self k msg).1 ≤ traj.GetMaxTime
    · exact ⟨_, fun fuel => by
        rw [GetControl_pass h clock (fuel + 1) self k msg traj hcur, if_pos hle]⟩
    · exact ⟨_, fun fuel => by
        rw [GetControl_pass h clock (fuel + 1) self k msg traj hcur, if_neg hle]
        exact GetControl_fresh_timeInvariant h clock fuel _ _ msg self.stable_controller_
          rfl rfl hTI hmax⟩

/-- C9 (amended): when the stabilizing trajectory is time-invariant and has
`GetMaxTime() >= 0`, every `GetControl` call returns within nesting depth 2 (at most one
re-entry), with the same result for every larger depth; the re-entered computation
under the stabilizing trajectory is always within its horizon. -/
theorem GetControl_terminates_after_one_reentry (h : Helpers) (clock : ℕ → ℤ)
    (self : TvlqrControl) (k : ℕ) (msg : mav_pose_t)
    (hTI : self.stable_controller_.IsTimeInvariant = true)
    (hmax : 0 ≤ self.stable_controller_.GetMaxTime) :
    (∃ r, ∀ fuel : ℕ, GetControl h clock (fuel + 2) self k msg = some r) ∧
    (∀ (c : TvlqrControl) (j : ℕ),
      (tAlong h clock self.stable_controller_ (SetTrajectory c self.stable_controller_) j msg).1
        ≤ self.stable_controller_.GetMaxTime) := by
  refine ⟨GetControl_returns_of_stabilizer h clock self k msg hTI hmax, ?_⟩
  · intro c j
    rw [tAlong_timeInvariant h clock _ _ j msg hTI]
    exact hmax

/-- Witness for C9 (amended): an expired time-varying trajectory over a time-invariant
stabilizing trajectory with maximum time 0. -/
theorem GetControl_terminates_after_one_reentry_witness :
    ∃ r, ∀ fuel : ℕ, GetControl specHelpers exampleClock (fuel + 2)
      (exampleTracking (exampleTrajectory false 0) (exampleTrajectory true 0)) 0 examplePose
        = some r :=
  (GetControl_terminates_after_one_reentry specHelpers exampleClock
    (exampleTracking (exampleTrajectory false 0) (exampleTrajectory true 0)) 0 examplePose rfl
    (by simp [exampleTracking, exampleControl, TvlqrControl.new, SetTrajectory,
      exampleTrajectory])).1

/-- The frame-relative state after unwrapping reads no clock: it is the same whatever
the clock and the cursor of the pass. -/
theorem unwrappedState_clock_independent (h : Helpers) (clock1 clock2 : ℕ → ℤ)
    (self : TvlqrControl) (k1 k2 : ℕ) (msg : mav_pose_t) :
    unwrappedState h (frameInit h clock1 self k1 msg).1 msg
      = unwrappedState h (frameInit h clock2 self k2 msg).1 msg := by
  unfold frameInit InitializeState
  split <;> rfl

/-- Whatever the nesting depth, a `GetControl` call that starts with the frame not
initialized and a non-null trajectory ends, when it returns, with the origin and the
heading rotation captured from the pose of the call. -/
theorem GetControl_uninitialized_captures (h : Helpers) (clock : ℕ → ℤ) (msg : mav_pose_t) :
    ∀ (fuel : ℕ) (c : TvlqrControl) (k : ℕ) (T : Trajectory)
      (r : VectorXi × TvlqrControl × ℕ),
      c.current_trajectory_ = some T → c.state_initialized_ = false →
      GetControl h clock fuel c k msg = some r →
      r.2.1.initial_state_ = h.PoseMsgToStateEstimatorVector msg ∧
      r.2.1.Mz_ = h.rotz (-(h.bot_quat_to_roll_pitch_yaw msg.orientation).2.2) ∧
      r.2.1.state_initialized_ = true := by
  intro fuel
  induction fuel with
  | zero => intro c k T r _ _ hret; simp [GetControl] at hret
  | succ n ih =>
    intro c k T r hcur hinit hret
    rw [GetControl_pass h clock n c k msg T hcur] at hret
    split at hret
    · rw [passState_of_uninitialized h clock c k msg hinit] at hret
      cases hret
      exact ⟨rfl, rfl, rfl⟩
    · exact ih _ _ c.stable_controller_ r rfl rfl hret

/-- C4: after `SetTrajectory(trajectory)` followed by `GetControl(p)`, whatever origin
was captured before and whether or not the call falls back to the stabilizing
trajectory, `initial_state_` is the state-estimator vector of `p` (so the origin
`initial_state_(0..2)` is the position of `p` whenever that vector starts with the
position) and `Mz_` is `rotz` of the negative of the yaw of `p`.  The call returns
whenever the stabilizing trajectory is time-invariant with `GetMaxTime() >= 0`. -/
theorem SetTrajectory_GetControl_recaptures_frame (h : Helpers) (clock : ℕ → ℤ) (fuel : ℕ)
    (self : TvlqrControl) (trajectory : Trajectory) (k : ℕ) (p : mav_pose_t)
    (r : VectorXi × TvlqrControl × ℕ)
    (hret : GetControl h clock fuel (SetTrajectory self trajectory) k p = some r) :
    r.2.1.initial_state_ = h.PoseMsgToStateEstimatorVector p ∧
    r.2.1.Mz_ = h.rotz (-(h.bot_quat_to_roll_pitch_yaw p.orientation).2.2) ∧
    (((h.PoseMsgToStateEstimatorVector p).getD 0 0, (h.PoseMsgToStateEstimatorVector p).getD 1 0,
        (h.PoseMsgToStateEstimatorVector p).getD 2 0) = p.pos →
      (r.2.1.initial_state_.getD 0 0, r.2.1.initial_state_.getD 1 0,
        r.2.1.initial_state_.getD 2 0) = p.pos) ∧
    (self.stable_controller_.IsTimeInvariant = true → 0 ≤ self.stable_controller_.GetMaxTime →
      ∀ n : ℕ, GetControl h clock (n + 2) (SetTrajectory self trajectory) k p
        = GetControl h clock 2 (SetTrajectory self trajectory) k p ∧
        (GetControl h clock 2 (SetTrajectory self trajectory) k p).isSome = true) := by
  obtain ⟨h1, h2, -⟩ := GetControl_uninitialized_captures h clock p fuel
    (SetTrajectory self trajectory) k trajectory r rfl rfl hret
  refine ⟨h1, h2, fun hpos => by rw [h1]; exact hpos, fun hTI hmax n => ?_⟩
  obtain ⟨r2, hr2⟩ := GetControl_returns_of_stabilizer h clock (SetTrajectory self trajectory)
    k p hTI hmax
  rw [hr2 n, ← hr2 0]
  exact ⟨rfl, by rw [hr2 0]; rfl⟩

/-- Witness for C4: a controller that tracked from another pose is given an expired
time-varying trajectory; the call falls back to the stabilizing trajectory and the
origin is the position (1, 2, 3) of the pose of the call. -/
theorem SetTrajectory_GetControl_recaptures_frame_witness :
    ∃ r, GetControl specHelpers exampleClock 2
        (SetTrajectory
          (capturedControl specHelpers (exampleControl (exampleTrajectory true 0)) 0
            { examplePose with pos := (7, 8, 9) })
          (exampleTrajectory false 0)) 0 examplePose = some r ∧
      (r.2.1.initial_state_.getD 0 0, r.2.1.initial_state_.getD 1 0,
        r.2.1.initial_state_.getD 2 0) = (1, 2, 3) := by
  obtain ⟨r, hr⟩ := GetControl_returns_of_stabilizer specHelpers exampleClock
    (SetTrajectory
      (capturedControl specHelpers (exampleControl (exampleTrajectory true 0)) 0
        { examplePose with pos := (7, 8, 9) })
      (exampleTrajectory false 0)) 0 examplePose rfl
    (by simp [capturedControl, exampleControl, TvlqrControl.new, SetTrajectory,
      exampleTrajectory])
  exact ⟨r, hr 0, (SetTrajectory_GetControl_recaptures_frame specHelpers exampleClock 2 _ _ 0
    examplePose r (hr 0)).2.2.1 rfl⟩

/-- The inner product is homogeneous in its second argument. -/
theorem dot_vscale (c : ℚ) : ∀ (row e : VectorXd), dot row (vscale c e) = c * dot row e := by
  intro row
  induction row with
  | nil => intro e; simp [dot]
  | cons a row ih =>
    intro e
    cases e with
    | nil => simp [dot, vscale]
    | cons b e =>
      have := ih e
      simp only [dot, vscale, List.map_cons, List.zipWith_cons_cons, List.sum_cons] at this ⊢
      rw [this]
      ring

/-- The inner product is additive in its second argument, for vectors of one size. -/
theorem dot_vadd : ∀ (row e1 e2 : VectorXd), e1.length = e2.length →
    dot row (vadd e1 e2) = dot row e1 + dot row e2 := by
  intro row
  induction row with
  | nil => intro e1 e2 _; simp [dot]
  | cons a row ih =>
    intro e1 e2 hlen
    cases e1 with
    | nil =>
      cases e2 with
      | nil => simp [dot, vadd]
      | cons b2 e2 => simp at hlen
    | cons b1 e1 =>
      cases e2 with
      | nil => simp at hlen
      | cons b2 e2 =>
        have := ih e1 e2 (by simpa using hlen)
        simp only [dot, vadd, List.zipWith_cons_cons, List.sum_cons] at this ⊢
        rw [this]
        ring

/-- The matrix-vector product is homogeneous. -/
theorem mulVec_vscale (K : MatrixXd) (c : ℚ) (e : VectorXd) :
    mulVec K (vscale c e) = vscale c (mulVec K e) := by
  simp [mulVec, vscale, List.map_map, Function.comp_def, dot_vscale c]
  intro row _
  exact dot_vscale c row e

/-- The matrix-vector product is additive, for vectors of one size. -/
theorem mulVec_vadd (K : MatrixXd) (e1 e2 : VectorXd) (hlen : e1.length = e2.length) :
    mulVec K (vadd e1 e2) = vadd (mulVec K e1) (mulVec K e2) := by
  induction K with
  | nil => simp [mulVec, vadd]
  | cons row K ih =>
    have hrow := dot_vadd row e1 e2 hlen
    simp only [mulVec, vadd, List.map_cons, List.zipWith_cons_cons] at ih hrow ⊢
    rw [ih, hrow]

/-- C8: for fixed `t` (hence fixed nominal state `x0`, nominal command `u` and gain
`K`) the raw command `u + K*(s - x0)` is affine in the frame-relative state `s`: the
correction `K*e` is homogeneous and additive in the error `e`, and when
`s2 - x0 = 2*(s1 - x0)` the correction `K*(s2 - x0)` is exactly `2*(K*(s1 - x0))`, so
the raw command at `s2` is `u + 2*(K*(s1 - x0))`.  Arithmetic is exact (rational). -/
theorem commandInRad_affine (traj : Trajectory) (t : ℚ) (s1 s2 : VectorXd)
    (hdouble : vsub s2 (traj.GetState t) = vscale 2 (vsub s1 (traj.GetState t))) :
    mulVec (traj.GetGainMatrix t) (vsub s2 (traj.GetState t))
      = vscale 2 (mulVec (traj.GetGainMatrix t) (vsub s1 (traj.GetState t))) ∧
    commandInRad traj t s2
      = vadd (traj.GetUCommand t)
          (vscale 2 (mulVec (traj.GetGainMatrix t) (vsub s1 (traj.GetState t)))) ∧
    (∀ (c : ℚ) (e : VectorXd),
      mulVec (traj.GetGainMatrix t) (vscale c e) = vscale c (mulVec (traj.GetGainMatrix t) e)) ∧
    (∀ e1 e2 : VectorXd, e1.length = e2.length →
      mulVec (traj.GetGainMatrix t) (vadd e1 e2)
        = vadd (mulVec (traj.GetGainMatrix t) e1) (mulVec (traj.GetGainMatrix t) e2)) := by
  refine ⟨?_, ?_, fun c e => mulVec_vscale _ c e, fun e1 e2 hlen => mulVec_vadd _ e1 e2 hlen⟩
  · rw [hdouble, mulVec_vscale]
  · rw [commandInRad, hdouble, mulVec_vscale]

/-- Witness for C8: the error (1,0,0,0,0,0) doubled to (2,0,0,0,0,0). -/
theorem commandInRad_affine_witness :
    mulVec (exampleGainTrajectory.GetGainMatrix 0)
        (vsub [3, 1, 1, 0, 0, 0] (exampleGainTrajectory.GetState 0))
      = vscale 2 (mulVec (exampleGainTrajectory.GetGainMatrix 0)
          (vsub [2, 1, 1, 0, 0, 0] (exampleGainTrajectory.GetState 0))) :=
  (commandInRad_affine exampleGainTrajectory 0 [2, 1, 1, 0, 0, 0] [3, 1, 1, 0, 0, 0]
    (by norm_num [vsub, vscale, exampleGainTrajectory])).1

/-- The attitude components of the unwrapped state are `AngleUnwrap` of the raw
component against the previous frame state, when the raw state has six components. -/
theorem unwrappedState_attitude (h : Helpers) (c : TvlqrControl) (msg : mav_pose_t)
    (hlen : 6 ≤ (GetStateMinusInit h c msg).length) (i : ℕ) (hi : i = 3 ∨ i = 4 ∨ i = 5) :
    (unwrappedState h c msg).getD i 0
      = h.AngleUnwrap ((GetStateMinusInit h c msg).getD i 0) (c.last_state_.getD i 0) := by
  unfold unwrappedState
  have h3 : 3 < (GetStateMinusInit h c msg).length := by omega
  have h4 : 4 < (GetStateMinusInit h c msg).length := by omega
  have h5 : 5 < (GetStateMinusInit h c msg).length := by omega
  rcases hi with rfl | rfl | rfl <;>
    simp [List.getD_eq_getElem?_getD, List.getElem?_set, h3, h4, h5]

/-- The components of the unwrapped state other than 3, 4, 5 are the raw components. -/
theorem unwrappedState_other (h : Helpers) (c : TvlqrControl) (msg : mav_pose_t)
    (i : ℕ) (h3 : i ≠ 3) (h4 : i ≠ 4) (h5 : i ≠ 5) :
    (unwrappedState h c msg).getD i 0 = (GetStateMinusInit h c msg).getD i 0 := by
  unfold unwrappedState
  simp [List.getD_eq_getElem?_getD, List.getElem?_set, Ne.symm h3, Ne.symm h4, Ne.symm h5]

/-- The spec model of `AngleUnwrap` meets the contract, for a positive full turn. -/
theorem specAngleUnwrap_contract (turn : ℚ) (hturn : 0 < turn) :
    UnwrapContract turn (specAngleUnwrap turn) := by
  intro angle prev
  constructor
  · exact ⟨-round ((angle - prev) / turn), by simp [specAngleUnwrap]; ring⟩
  · have hx := abs_sub_round ((angle - prev) / turn)
    have heq : specAngleUnwrap turn angle prev - prev
        = turn * ((angle - prev) / turn - round ((angle - prev) / turn)) := by
      unfold specAngleUnwrap
      field_simp
      ring
    rw [heq, abs_mul, abs_of_pos hturn]
    calc turn * |(angle - prev) / turn - round ((angle - prev) / turn)|
        ≤ turn * (1 / 2) := mul_le_mul_of_nonneg_left hx hturn.le
      _ = turn / 2 := by ring

/-- Under the contract of `AngleUnwrap`: when the previous corrected angle `c1` is
equivalent to the previous raw angle `r1`, and the new raw angle is `r1 + d` modulo a
full turn with `|d|` below half a turn, the new corrected angle is `c1 + d`. -/
theorem unwrap_step (turn : ℚ) (hturn : 0 < turn) (f : ℚ → ℚ → ℚ) (hU : UnwrapContract turn f)
    (r1 r2 c1 d : ℚ) (m n : ℤ) (hc1 : c1 = r1 + m * turn) (hr2 : r2 = r1 + d + n * turn)
    (hd : |d| < turn / 2) : f r2 c1 = c1 + d := by
  obtain ⟨⟨j, hj⟩, hclose⟩ := hU r2 c1
  have hdiff : f r2 c1 - c1 - d = ((n + j - m : ℤ) : ℚ) * turn := by
    rw [hj, hr2, hc1]; push_cast; ring
  have hlt : |((n + j - m : ℤ) : ℚ) * turn| < 1 * turn := by
    rw [← hdiff]
    calc |f r2 c1 - c1 - d| ≤ |f r2 c1 - c1| + |d| := abs_sub _ _
      _ < turn / 2 + turn / 2 := add_lt_add_of_le_of_lt hclose hd
      _ = 1 * turn := by ring
  rw [abs_mul, abs_of_pos hturn] at hlt
  have hlt1 : |((n + j - m : ℤ) : ℚ)| < 1 := lt_of_mul_lt_mul_right hlt hturn.le
  have hz : n + j - m = 0 := by
    have : |n + j - m| < 1 := by exact_mod_cast hlt1
    exact Int.abs_lt_one_iff.mp this
  rw [hz] at hdiff
  simp at hdiff
  linarith

/-- After a pass the frame is initialized. -/
theorem passState_initialized (h : Helpers) (clock : ℕ → ℤ) (self : TvlqrControl) (k : ℕ)
    (msg : mav_pose_t) : (passState h clock self k msg).state_initialized_ = true := by
  unfold passState frameInit InitializeState
  split
  · rfl
  · rename_i hne
    simpa using hne

/-- A pass does not change the active trajectory. -/
theorem passState_current_trajectory (h : Helpers) (clock : ℕ → ℤ) (self : TvlqrControl)
    (k : ℕ) (msg : mav_pose_t) :
    (passState h clock self k msg).current_trajectory_ = self.current_trajectory_ := by
  unfold passState frameInit InitializeState
  split <;> rfl

/-- C7: two consecutive `GetControl` calls within one tracking episode (the same active
trajectory, both calls inside the horizon), with `AngleUnwrap` meeting the spec's
contract for the full turn `turn` and six-component states: for each attitude index
`i` in {3,4,5}, if the new raw angle is the previous raw angle plus `d` modulo a full
turn with `|d|` below half a turn, both calls return and the corrected angle stored by
the second call is the one stored by the first plus `d` (a raw wrap from
`turn/2 - e` to `-turn/2 + e` is the case `d = 2e`, one turn down). -/
theorem GetControl_unwrap_continuity (h : Helpers) (clock : ℕ → ℤ) (turn : ℚ)
    (hturn : 0 < turn) (hU : UnwrapContract turn h.AngleUnwrap) (fuel1 fuel2 : ℕ)
    (self : TvlqrControl) (k : ℕ) (msg1 msg2 : mav_pose_t) (traj : Trajectory)
    (hcur : self.current_trajectory_ = some traj)
    (hin1 : (tAlong h clock traj self k msg1).1 ≤ traj.GetMaxTime)
    (hin2 : (tAlong h clock traj (passState h clock self k msg1)
      (tAlong h clock traj self k msg1).2 msg2).1 ≤ traj.GetMaxTime)
    (hlen1 : 6 ≤ (GetStateMinusInit h (frameInit h clock self k msg1).1 msg1).length)
    (hlen2 : 6 ≤ (GetStateMinusInit h (passState h clock self k msg1) msg2).length)
    (i : ℕ) (hi : i = 3 ∨ i = 4 ∨ i = 5) (d : ℚ) (n : ℤ) (hd : |d| < turn / 2)
    (hraw : (GetStateMinusInit h (passState h clock self k msg1) msg2).getD i 0
      = (GetStateMinusInit h (frameInit h clock self k msg1).1 msg1).getD i 0 + d + n * turn) :
    ∃ (cmd1 cmd2 : VectorXi) (c1 c2 : TvlqrControl) (k1 k2 : ℕ),
      GetControl h clock (fuel1 + 1) self k msg1 = some (cmd1, c1, k1) ∧
      GetControl h clock (fuel2 + 1) c1 k1 msg2 = some (cmd2, c2, k2) ∧
      c2.last_state_.getD i 0 = c1.last_state_.getD i 0 + d := by
  have hcur1 : (passState h clock self k msg1).current_trajectory_ = some traj := by
    rw [passState_current_trajectory, hcur]
  have hfr : frameInit h clock (passState h clock self k msg1)
      (tAlong h clock traj self k msg1).2 msg2
      = (passState h clock self k msg1, (tAlong h clock traj self k msg1).2) :=
    frameInit_of_initialized h clock _ _ msg2 (passState_initialized h clock self k msg1)
  have e1 := GetControl_pass h clock fuel1 self k msg1 traj hcur
  rw [if_pos hin1] at e1
  have e2 := GetControl_pass h clock fuel2 (passState h clock self k msg1)
    (tAlong h clock traj self k msg1).2 msg2 traj hcur1
  rw [if_pos hin2] at e2
  refine ⟨_, _, _, _, _, _, e1, e2, ?_⟩
  · have hc2 : (passState h clock (passState h clock self k msg1)
        (tAlong h clock traj self k msg1).2 msg2).last_state_
        = unwrappedState h (passState h clock self k msg1) msg2 := by
      unfold passState at hfr ⊢
      rw [hfr]
    have hc1 : (passState h clock self k msg1).last_state_
        = unwrappedState h (frameInit h clock self k msg1).1 msg1 := rfl
    rw [hc2, unwrappedState_attitude h _ msg2 hlen2 i hi, hc1,
      unwrappedState_attitude h _ msg1 hlen1 i hi]
    obtain ⟨⟨m, hm⟩, -⟩ := hU
      ((GetStateMinusInit h (frameInit h clock self k msg1).1 msg1).getD i 0)
      ((frameInit h clock self k msg1).1.last_state_.getD i 0)
    exact unwrap_step turn hturn h.AngleUnwrap hU _ _ _ d m n hm hraw hd

/-- Witness for C7: the full turn is `2 * M_PI`; the raw roll goes from `M_PI - 1/10`
to `-M_PI + 1/10` (a wrap), and the stored corrected roll grows by `1/5`. -/
theorem GetControl_unwrap_continuity_witness :
    ∃ (cmd1 cmd2 : VectorXi) (c1 c2 : TvlqrControl) (k1 k2 : ℕ),
      GetControl specHelpers exampleClock 1
          (exampleTracking (exampleTrajectory true 0) (exampleTrajectory true 0)) 0
          (exampleRolledPose (M_PI - 1 / 10)) = some (cmd1, c1, k1) ∧
      GetControl specHelpers exampleClock 1 c1 k1 (exampleRolledPose (-M_PI + 1 / 10))
        = some (cmd2, c2, k2) ∧
      c2.last_state_.getD 3 0 = c1.last_state_.getD 3 0 + 1 / 5 :=
  GetControl_unwrap_continuity specHelpers exampleClock (2 * M_PI) (by norm_num [M_PI])
    (specAngleUnwrap_contract (2 * M_PI) (by norm_num [M_PI])) 0 0
    (exampleTracking (exampleTrajectory true 0) (exampleTrajectory true 0)) 0
    (exampleRolledPose (M_PI - 1 / 10)) (exampleRolledPose (-M_PI + 1 / 10))
    (exampleTrajectory true 0) rfl
    (by simp [tAlong, exampleTrajectory]) (by simp [tAlong, exampleTrajectory])
    (by simp [GetStateMinusInit, specHelpers]) (by simp [GetStateMinusInit, specHelpers])
    3 (Or.inl rfl) (1 / 5) (-1) (by rw [abs_of_pos (by norm_num)]; norm_num [M_PI])
    (by norm_num [GetStateMinusInit, passState, frameInit, InitializeState, exampleTracking,
      exampleControl, TvlqrControl.new, SetTrajectory, specHelpers, exampleRolledPose,
      examplePose, M_PI])

/-- The spec model of the helpers meets the pose contract. -/
theorem specHelpers_poseContract : PoseContract specHelpers := by
  refine ⟨fun m => rfl, fun m M hm => ?_, fun m a => ⟨rfl, rfl⟩, fun m => ?_⟩
  · simp [specHelpers, hm]
  · simp [specHelpers]

/-- C10 (as stated, refuted): on the first `GetControl` call after `SetTrajectory`, for
a pose banked about its forward axis (yaw 0), the frame-relative state is
`(0, 0, 0, 24/25, 0, 0)`, before and after unwrapping: the roll component is not 0. -/
theorem first_frame_state_not_all_zero :
    GetStateMinusInit specHelpers
        (frameInit specHelpers exampleClock
          (exampleTracking (exampleTrajectory true 0) (exampleTrajectory true 0)) 0
          exampleBankedPose).1 exampleBankedPose
      = [0, 0, 0, 24 / 25, 0, 0] ∧
    unwrappedState specHelpers
        (frameInit specHelpers exampleClock
          (exampleTracking (exampleTrajectory true 0) (exampleTrajectory true 0)) 0
          exampleBankedPose).1 exampleBankedPose
      = [0, 0, 0, 24 / 25, 0, 0] ∧
    ([0, 0, 0, 24 / 25, 0, 0] : VectorXd) ≠ [0, 0, 0, 0, 0, 0] := by
  refine ⟨?_, ?_, by norm_num⟩
  · norm_num [GetStateMinusInit, frameInit, InitializeState, exampleTracking, exampleControl,
      TvlqrControl.new, SetTrajectory, specHelpers, exampleBankedPose, examplePose]
  · norm_num [unwrappedState, GetStateMinusInit, frameInit, InitializeState, exampleTracking,
      exampleControl, TvlqrControl.new, SetTrajectory, specHelpers, specAngleUnwrap,
      exampleBankedPose, examplePose]

/-- C10 (amended): on the first `GetControl` call after `SetTrajectory`, for every pose
`p` and helpers meeting the pose contract, the frame-relative state computed for `p`
has position components 0 (the vehicle is at its own captured origin) and heading 0;
its roll and pitch are the roll and pitch of `p`. -/
theorem first_frame_state_at_origin (h : Helpers) (clock : ℕ → ℤ) (self : TvlqrControl)
    (trajectory : Trajectory) (k : ℕ) (p : mav_pose_t) (hP : PoseContract h) :
    (GetStateMinusInit h (frameInit h clock (SetTrajectory self trajectory) k p).1 p).getD 0 0
      = 0 ∧
    (GetStateMinusInit h (frameInit h clock (SetTrajectory self trajectory) k p).1 p).getD 1 0
      = 0 ∧
    (GetStateMinusInit h (frameInit h clock (SetTrajectory self trajectory) k p).1 p).getD 2 0
      = 0 ∧
    (GetStateMinusInit h (frameInit h clock (SetTrajectory self trajectory) k p).1 p).getD 3 0
      = (h.bot_quat_to_roll_pitch_yaw p.orientation).1 ∧
    (GetStateMinusInit h (frameInit h clock (SetTrajectory self trajectory) k p).1 p).getD 4 0
      = (h.bot_quat_to_roll_pitch_yaw p.orientation).2.1 ∧
    (GetStateMinusInit h (frameInit h clock (SetTrajectory self trajectory) k p).1 p).getD 5 0
      = 0 := by
  obtain ⟨hpos, hzero, hrp, hyaw⟩ := hP
  have hfr : frameInit h clock (SetTrajectory self trajectory) k p
      = InitializeState h clock (SetTrajectory self trajectory) k p :=
    frameInit_of_uninitialized h clock _ k p rfl
  have hp := hpos p
  simp only [Prod.ext_iff] at hp
  have hstate : GetStateMinusInit h (InitializeState h clock (SetTrajectory self trajectory) k p).1 p
      = h.PoseMsgToStateEstimatorVectorMz { p with pos := (0, 0, 0) }
          (h.rotz (-(h.bot_quat_to_roll_pitch_yaw p.orientation).2.2)) := by
    simp only [GetStateMinusInit, InitializeState, hp.1, hp.2.1, hp.2.2, sub_self]
  rw [hfr, hstate]
  obtain ⟨z0, z1, z2⟩ := hzero { p with pos := (0, 0, 0) }
    (h.rotz (-(h.bot_quat_to_roll_pitch_yaw p.orientation).2.2)) rfl
  exact ⟨z0, z1, z2, (hrp _ _).1, (hrp _ _).2, hyaw { p with pos := (0, 0, 0) }⟩

/-- Witness for C10 (amended): the spec model of the helpers and the banked pose. -/
theorem first_frame_state_at_origin_witness :
    (GetStateMinusInit specHelpers
        (frameInit specHelpers exampleClock
          (SetTrajectory (exampleControl (exampleTrajectory true 0)) (exampleTrajectory true 0))
          0 exampleBankedPose).1 exampleBankedPose).getD 0 0 = 0 :=
  (first_frame_state_at_origin specHelpers exampleClock
    (exampleControl (exampleTrajectory true 0)) (exampleTrajectory true 0) 0 exampleBankedPose
    specHelpers_poseContract).1

/-- A `GetControl` call that returns keeps a null trajectory null and a non-null
trajectory non-null. -/
theorem GetControl_current_isSome (h : Helpers) (clock : ℕ → ℤ) (msg : mav_pose_t) :
    ∀ (fuel : ℕ) (c : TvlqrControl) (k : ℕ) (r : VectorXi × TvlqrControl × ℕ),
      GetControl h clock fuel c k msg = some r →
      r.2.1.current_trajectory_.isSome = c.current_trajectory_.isSome := by
  intro fuel
  induction fuel with
  | zero => intro c k r hret; simp [GetControl] at hret
  | succ n ih =>
    intro c k r hret
    cases hcur : c.current_trajectory_ with
    | none =>
      simp [GetControl, hcur] at hret
      rw [← hret]
      simp [hcur]
    | some T =>
      rw [GetControl_pass h clock n c k msg T hcur] at hret
      split at hret
      · cases hret
        simp [passState_current_trajectory, hcur]
      · have := ih _ _ r hret
        simpa [SetTrajectory] using this

/-- Along a run the trajectory is non-null at the end exactly when it was non-null at
the start or the run contains a `SetTrajectory` call. -/
theorem runCalls_current_isSome (h : Helpers) (clock : ℕ → ℤ) (fuel : ℕ) :
    ∀ (calls : List Call) (s0 s : RunState), runCalls h clock fuel calls s0 = some s →
      s.control.current_trajectory_.isSome
        = (s0.control.current_trajectory_.isSome || calls.any Call.isSetTrajectory) := by
  intro calls
  induction calls with
  | nil => intro s0 s hrun; simp [runCalls] at hrun; simp [hrun]
  | cons c cs ih =>
    intro s0 s hrun
    rw [runCalls] at hrun
    cases hstep : stepCall h clock fuel s0 c with
    | none => simp [hstep] at hrun
    | some s1 =>
      simp only [hstep] at hrun
      rw [ih s1 s hrun]
      cases c with
      | setTrajectory T =>
        simp only [stepCall, Option.some.injEq] at hstep
        rw [← hstep]
        simp [SetTrajectory, Call.isSetTrajectory]
      | getControl msg =>
        simp only [stepCall] at hstep
        cases hg : GetControl h clock fuel s0.control s0.cursor msg with
        | none => simp [hg] at hstep
        | some r =>
          simp only [hg, Option.some.injEq] at hstep
          rw [← hstep]
          simp [GetControl_current_isSome h clock msg fuel _ _ r hg, Call.isSetTrajectory]

/-- C11 (as stated, refuted): immediately after construction `current_trajectory_` is
null, and it is still null after a `GetControl` call. -/
theorem constructed_trajectory_null :
    (exampleControl (exampleTrajectory true 0)).current_trajectory_ = none ∧
    (runCalls specHelpers exampleClock 1 [Call.getControl examplePose]
        (constructed exampleConverter (exampleTrajectory true 0) (fun _ _ => 0) 0)).map
      (fun s => s.control.current_trajectory_.isSome) = some false := by
  refine ⟨rfl, ?_⟩
  simp [runCalls, stepCall, constructed, TvlqrControl.new, GetControl]

/-- C11 (amended): in every state reached from the constructor by `SetTrajectory` and
`GetControl` calls, `current_trajectory_` is non-null exactly when at least one
`SetTrajectory` call has been made; immediately after construction it is null. -/
theorem reachable_trajectory_nonnull_iff (h : Helpers) (clock : ℕ → ℤ) (fuel : ℕ)
    (converter : ServoConverter) (stable_controller : Trajectory) (Mz : Matrix3d) (k : ℕ)
    (calls : List Call) (s : RunState)
    (hrun : runCalls h clock fuel calls (constructed converter stable_controller Mz k) = some s) :
    (s.control.current_trajectory_ ≠ none ↔ ∃ c ∈ calls, c.isSetTrajectory = true) ∧
    (TvlqrControl.new converter stable_controller Mz).current_trajectory_ = none := by
  have hs := runCalls_current_isSome h clock fuel calls _ s hrun
  refine ⟨?_, rfl⟩
  rw [← Option.isSome_iff_ne_none, hs]
  simp [constructed, TvlqrControl.new]

/-- An example run: construction, `SetTrajectory` of a time-invariant trajectory with
maximum time 0, then one `GetControl`; it ends with the frame captured from the pose. -/
theorem exampleRun_set_get :
    runCalls specHelpers exampleClock 1
      [Call.setTrajectory (exampleTrajectory true 0), Call.getControl examplePose]
      (constructed exampleConverter (exampleTrajectory true 0) (fun _ _ => 0) 0)
      = some { control := capturedControl specHelpers
                 (SetTrajectory
                   (TvlqrControl.new exampleConverter (exampleTrajectory true 0) (fun _ _ => 0))
                   (exampleTrajectory true 0)) (exampleClock 0) examplePose,
               cursor := 1, poseProcessed := true } := by
  have hg := GetControl_fresh_timeInvariant specHelpers exampleClock 0
    (SetTrajectory (TvlqrControl.new exampleConverter (exampleTrajectory true 0) (fun _ _ => 0))
      (exampleTrajectory true 0)) 0 examplePose (exampleTrajectory true 0) rfl rfl rfl
    (by simp [exampleTrajectory])
  simp only [runCalls, stepCall, constructed, hg]
  rfl

/-- Witness for C11 (amended): construction, `SetTrajectory`, then one `GetControl`. -/
theorem reachable_trajectory_nonnull_iff_witness :
    ∃ s, runCalls specHelpers exampleClock 1
        [Call.setTrajectory (exampleTrajectory true 0), Call.getControl examplePose]
        (constructed exampleConverter (exampleTrajectory true 0) (fun _ _ => 0) 0) = some s ∧
      s.control.current_trajectory_ ≠ none :=
  ⟨_, exampleRun_set_get, (reachable_trajectory_nonnull_iff specHelpers exampleClock 1
    exampleConverter (exampleTrajectory true 0) (fun _ _ => 0) 0 _ _ exampleRun_set_get).1.mpr
    ⟨Call.setTrajectory (exampleTrajectory true 0), by simp, rfl⟩⟩

/-- A `GetControl` call with a non-null trajectory that returns leaves the frame
initialized, whatever the number of re-entries. -/
theorem GetControl_initialized_of_some (h : Helpers) (clock : ℕ → ℤ) (msg : mav_pose_t) :
    ∀ (fuel : ℕ) (c : TvlqrControl) (k : ℕ) (T : Trajectory) (r : VectorXi × TvlqrControl × ℕ),
      c.current_trajectory_ = some T → GetControl h clock fuel c k msg = some r →
      r.2.1.state_initialized_ = true := by
  intro fuel
  induction fuel with
  | zero => intro c k T r _ hret; simp [GetControl] at hret
  | succ n ih =>
    intro c k T r hcur hret
    rw [GetControl_pass h clock n c k msg T hcur] at hret
    split at hret
    · cases hret
      exact passState_initialized h clock c k msg
    · exact ih _ _ c.stable_controller_ r rfl hret

/-- A `GetControl` call with a null trajectory returns the controller and the cursor
unchanged. -/
theorem GetControl_null_state (h : Helpers) (clock : ℕ → ℤ) (msg : mav_pose_t) (fuel : ℕ)
    (c : TvlqrControl) (k : ℕ) (r : VectorXi × TvlqrControl × ℕ)
    (hcur : c.current_trajectory_ = none) (hret : GetControl h clock fuel c k msg = some r) :
    r.2.1 = c ∧ r.2.2 = k := by
  cases fuel with
  | zero => simp [GetControl] at hret
  | succ n =>
    simp [GetControl, hcur] at hret
    rw [← hret]
    exact ⟨rfl, rfl⟩

/-- A run of a concatenation of calls is the run of the second part after the first. -/
theorem runCalls_append (h : Helpers) (clock : ℕ → ℤ) (fuel : ℕ) :
    ∀ (a b : List Call) (s0 s : RunState), runCalls h clock fuel (a ++ b) s0 = some s →
      ∃ s1, runCalls h clock fuel a s0 = some s1 ∧ runCalls h clock fuel b s1 = some s := by
  intro a
  induction a with
  | nil => intro b s0 s hrun; exact ⟨s0, rfl, hrun⟩
  | cons c cs ih =>
    intro b s0 s hrun
    rw [List.cons_append, runCalls] at hrun
    rw [runCalls]
    cases hstep : stepCall h clock fuel s0 c with
    | none => simp [hstep] at hrun
    | some s1 =>
      simp only [hstep] at hrun ⊢
      exact ih b s1 s hrun

/-- The effect of one call on the trajectory pointer, the initialization flag and the
history flag. -/
theorem stepCall_flags (h : Helpers) (clock : ℕ → ℤ) (fuel : ℕ) (s0 s1 : RunState) (c : Call)
    (hstep : stepCall h clock fuel s0 c = some s1) :
    (c.isSetTrajectory = true →
      s1.control.current_trajectory_.isSome = true ∧ s1.control.state_initialized_ = false ∧
      s1.poseProcessed = false) ∧
    (c.isSetTrajectory = false →
      s1.control.current_trajectory_.isSome = s0.control.current_trajectory_.isSome ∧
      s1.poseProcessed = (s0.control.current_trajectory_.isSome || s0.poseProcessed) ∧
      (s0.control.current_trajectory_.isSome = true → s1.control.state_initialized_ = true) ∧
      (s0.control.current_trajectory_.isSome = false →
        s1.control.state_initialized_ = s0.control.state_initialized_)) := by
  cases c with
  | setTrajectory T =>
    simp only [stepCall, Option.some.injEq] at hstep
    rw [← hstep]
    simp [SetTrajectory, Call.isSetTrajectory]
  | getControl msg =>
    simp only [stepCall] at hstep
    cases hg : GetControl h clock fuel s0.control s0.cursor msg with
    | none => simp [hg] at hstep
    | some r =>
      simp only [hg, Option.some.injEq] at hstep
      rw [← hstep]
      refine ⟨fun hc => by simp [Call.isSetTrajectory] at hc, fun _ => ⟨?_, rfl, ?_, ?_⟩⟩
      · exact GetControl_current_isSome h clock msg fuel _ _ r hg
      · intro hsome
        obtain ⟨T, hT⟩ := Option.isSome_iff_exists.mp hsome
        exact GetControl_initialized_of_some h clock msg fuel _ _ T r hT hg
      · intro hnone
        have hn : s0.control.current_trajectory_ = none := by
          cases hc : s0.control.current_trajectory_ with
          | none => rfl
          | some T => simp [hc] at hnone
        rw [(GetControl_null_state h clock msg fuel _ _ r hn hg).1]

/-- Along a run, the initialization flag and the history flag stay equal, and the
history flag is the one read off the list of calls. -/
theorem runCalls_flags (h : Helpers) (clock : ℕ → ℤ) (fuel : ℕ) :
    ∀ (calls : List Call) (s0 s : RunState),
      s0.control.state_initialized_ = s0.poseProcessed →
      runCalls h clock fuel calls s0 = some s →
      s.control.state_initialized_ = s.poseProcessed ∧
      s.poseProcessed = poseSinceSetTrajectory s0.control.current_trajectory_.isSome
        s0.poseProcessed calls := by
  intro calls
  induction calls with
  | nil =>
    intro s0 s hinv hrun
    simp [runCalls] at hrun
    rw [← hrun]
    exact ⟨hinv, rfl⟩
  | cons c cs ih =>
    intro s0 s hinv hrun
    rw [runCalls] at hrun
    cases hstep : stepCall h clock fuel s0 c with
    | none => simp [hstep] at hrun
    | some s1 =>
      simp only [hstep] at hrun
      obtain ⟨hset, hget⟩ := stepCall_flags h clock fuel s0 s1 c hstep
      cases c with
      | setTrajectory T =>
        obtain ⟨h1, h2, h3⟩ := hset rfl
        obtain ⟨i1, i2⟩ := ih s1 s (by rw [h2, h3]) hrun
        refine ⟨i1, ?_⟩
        rw [i2, h1, h3]
        rfl
      | getControl msg =>
        obtain ⟨h1, h2, h3, h4⟩ := hget rfl
        have hinv1 : s1.control.state_initialized_ = s1.poseProcessed := by
          rw [h2]
          cases hc : s0.control.current_trajectory_.isSome with
          | true => simp [h3 hc]
          | false => simp [h4 hc, hinv]
        obtain ⟨i1, i2⟩ := ih s1 s hinv1 hrun
        refine ⟨i1, ?_⟩
        rw [i2, h1, h2]
        rfl

/-- C12: in every state reached from the constructor by `SetTrajectory` and
`GetControl` calls, `state_initialized_` is false exactly when no `GetControl` call has
processed a pose since the most recent `SetTrajectory` call (a call made while no
trajectory is set returns at the guard and processes none); the history is the one
read off the list of calls; and the flag is true after every `GetControl` call that
follows a `SetTrajectory` call. -/
theorem reachable_initialized_iff_pose_processed (h : Helpers) (clock : ℕ → ℤ) (fuel : ℕ)
    (converter : ServoConverter) (stable_controller : Trajectory) (Mz : Matrix3d) (k : ℕ)
    (calls : List Call) (s : RunState)
    (hrun : runCalls h clock fuel calls (constructed converter stable_controller Mz k) = some s) :
    (s.control.state_initialized_ = false ↔ s.poseProcessed = false) ∧
    s.poseProcessed = poseSinceSetTrajectory false false calls ∧
    (∀ (pre : List Call) (msg : mav_pose_t), calls = pre ++ [Call.getControl msg] →
      (∃ c ∈ pre, c.isSetTrajectory = true) → s.control.state_initialized_ = true) := by
  obtain ⟨h1, h2⟩ := runCalls_flags h clock fuel calls _ s rfl hrun
  refine ⟨by rw [h1], h2, ?_⟩
  intro pre msg hcalls hset
  rw [hcalls] at hrun
  obtain ⟨s1, hpre, hlast⟩ := runCalls_append h clock fuel pre _ _ s hrun
  have hsome := runCalls_current_isSome h clock fuel pre _ s1 hpre
  have hany : pre.any Call.isSetTrajectory = true := by
    obtain ⟨c, hc, hcs⟩ := hset
    exact List.any_eq_true.mpr ⟨c, hc, hcs⟩
  rw [hany, Bool.or_true] at hsome
  rw [runCalls] at hlast
  cases hstep : stepCall h clock fuel s1 (Call.getControl msg) with
  | none => simp [hstep] at hlast
  | some s2 =>
    simp only [hstep, runCalls, Option.some.injEq] at hlast
    rw [← hlast]
    exact ((stepCall_flags h clock fuel s1 s2 _ hstep).2 rfl).2.2.1 hsome

/-- Witness for C12: construction, `SetTrajectory`, then one `GetControl`: the frame is
initialized and a pose has been processed. -/
theorem reachable_initialized_iff_pose_processed_witness :
    ∃ s, runCalls specHelpers exampleClock 1
        [Call.setTrajectory (exampleTrajectory true 0), Call.getControl examplePose]
        (constructed exampleConverter (exampleTrajectory true 0) (fun _ _ => 0) 0) = some s ∧
      s.poseProcessed = true ∧ s.control.state_initialized_ = true :=
  ⟨_, exampleRun_set_get, rfl,
    (reachable_initialized_iff_pose_processed specHelpers exampleClock 1 exampleConverter
      (exampleTrajectory true 0) (fun _ _ => 0) 0 _ _ exampleRun_set_get).2.2
      [Call.setTrajectory (exampleTrajectory true 0)] examplePose rfl
      ⟨_, List.mem_singleton.mpr rfl, rfl⟩⟩

/-- C13 (as stated, refuted): a time-varying trajectory with maximum time 1 s over a
time-invariant stabilizing trajectory.  After `SetTrajectory` and a first `GetControl`
the origin is (1, 2, 3) and `t0_ = 0`; a second `GetControl`, two seconds after the
capture and with no `SetTrajectory` by the caller in between, takes the
horizon-exceeded branch and assigns the origin (7, 8, 9) and `t0_ = 3000000`. -/
theorem frame_reassigned_by_later_call :
    (runCalls specHelpers exampleClock 2
        [Call.setTrajectory (exampleTrajectory false 1), Call.getControl examplePose]
        (constructed exampleConverter (exampleTrajectory true 0) (fun _ _ => 0) 0)).map
      (fun s => (s.control.initial_state_, s.control.t0_)) = some ([1, 2, 3, 0, 0, 0], 0) ∧
    (runCalls specHelpers exampleClock 2
        [Call.setTrajectory (exampleTrajectory false 1), Call.getControl examplePose,
          Call.getControl exampleMovedPose]
        (constructed exampleConverter (exampleTrajectory true 0) (fun _ _ => 0) 0)).map
      (fun s => (s.control.initial_state_, s.control.t0_))
      = some ([7, 8, 9, 0, 0, 0], 3000000) := by
  constructor
  · norm_num [runCalls, stepCall, constructed, GetControl, InitializeState, GetStateMinusInit,
      GetTNow, wrapInt64, SetTrajectory, TvlqrControl.new, exampleTrajectory, exampleConverter,
      exampleClock, examplePose, specHelpers, specAngleUnwrap, vadd, vsub, mulVec, dot]
  · norm_num [runCalls, stepCall, constructed, GetControl, InitializeState, GetStateMinusInit,
      GetTNow, wrapInt64, SetTrajectory, TvlqrControl.new, exampleTrajectory, exampleConverter,
      exampleClock, examplePose, exampleMovedPose, specHelpers, specAngleUnwrap, vadd, vsub,
      mulVec, dot]

/-- A pass of an initialized controller keeps the captured origin, heading rotation
and start time. -/
theorem passState_frame_of_initialized (h : Helpers) (clock : ℕ → ℤ) (self : TvlqrControl)
    (k : ℕ) (msg : mav_pose_t) (hinit : self.state_initialized_ = true) :
    (passState h clock self k msg).initial_state_ = self.initial_state_ ∧
    (passState h clock self k msg).Mz_ = self.Mz_ ∧
    (passState h clock self k msg).t0_ = self.t0_ ∧
    (passState h clock self k msg).last_state_ = unwrappedState h self msg := by
  unfold passState
  rw [frameInit_of_initialized h clock self k msg hinit]
  exact ⟨rfl, rfl, rfl, rfl⟩

/-- C14 (as stated, refuted): a time-invariant trajectory with maximum time 0 on the
first call after `SetTrajectory`: time-along-trajectory equals the maximum time, the
command comes from the active trajectory, yet `state_initialized_` goes from false to
true. -/
theorem horizon_equal_initializes_frame :
    (tAlong specHelpers exampleClock (exampleTrajectory true 0)
      (exampleTracking (exampleTrajectory true 0) (exampleTrajectory true 0)) 0 examplePose).1
      = (exampleTrajectory true 0).GetMaxTime ∧
    (exampleTracking (exampleTrajectory true 0)
      (exampleTrajectory true 0)).state_initialized_ = false ∧
    (GetControl specHelpers exampleClock 1
        (exampleTracking (exampleTrajectory true 0) (exampleTrajectory true 0)) 0
        examplePose).map (fun r => r.2.1.state_initialized_) = some true := by
  refine ⟨by simp [tAlong, exampleTrajectory], rfl, ?_⟩
  rw [GetControl_fresh_timeInvariant specHelpers exampleClock 0 _ 0 examplePose
    (exampleTrajectory true 0) rfl rfl rfl (by simp [exampleTrajectory])]
  rfl

/-- C14 (amended): the horizon check is strict.  When time-along-trajectory is at most
the active trajectory's `GetMaxTime()`, in particular when it equals it, `GetControl`
returns the command computed from the active trajectory, leaves `current_trajectory_`
unchanged and leaves `state_initialized_` true (unchanged when the frame was already
initialized).  When it is strictly greater, and only then, `GetControl` continues as
`SetTrajectory(*stable_controller_)` followed by `GetControl` on the same pose. -/
theorem GetControl_horizon_check (h : Helpers) (clock : ℕ → ℤ) (fuel : ℕ)
    (self : TvlqrControl) (k : ℕ) (msg : mav_pose_t) (traj : Trajectory)
    (hcur : self.current_trajectory_ = some traj) :
    ((tAlong h clock traj self k msg).1 ≤ traj.GetMaxTime →
      GetControl h clock (fuel + 1) self k msg
        = some (self.converter_.RadiansToServoCommands
                  (commandInRad traj (tAlong h clock traj self k msg).1
                    (unwrappedState h (frameInit h clock self k msg).1 msg)),
                passState h clock self k msg, (tAlong h clock traj self k msg).2) ∧
      (passState h clock self k msg).current_trajectory_ = self.current_trajectory_ ∧
      (passState h clock self k msg).state_initialized_ = true ∧
      (self.state_initialized_ = true →
        (passState h clock self k msg).state_initialized_ = self.state_initialized_)) ∧
    (traj.GetMaxTime < (tAlong h clock traj self k msg).1 →
      GetControl h clock (fuel + 1) self k msg
        = GetControl h clock fuel
            (SetTrajectory (passState h clock self k msg) self.stable_controller_)
            (tAlong h clock traj self k msg).2 msg) ∧
    ((tAlong h clock traj self k msg).1 = traj.GetMaxTime →
      ∃ cmd, GetControl h clock (fuel + 1) self k msg
        = some (cmd, passState h clock self k msg, (tAlong h clock traj self k msg).2)) := by
  have e := GetControl_pass h clock fuel self k msg traj hcur
  refine ⟨fun hle => ⟨?_, passState_current_trajectory h clock self k msg,
    passState_initialized h clock self k msg, fun hinit => ?_⟩, fun hgt => ?_, fun heq => ?_⟩
  · rw [e, if_pos hle]
  · rw [passState_initialized, hinit]
  · rw [e, if_neg (not_le.mpr hgt)]
  · rw [e, if_pos (le_of_eq heq)]
    exact ⟨_, rfl⟩

/-- Witness for C14 (amended): time-along-trajectory 0 equal to the maximum time 0. -/
theorem GetControl_horizon_check_witness :
    ∃ cmd, GetControl specHelpers exampleClock 1
        (exampleTracking (exampleTrajectory true 0) (exampleTrajectory true 0)) 0 examplePose
      = some (cmd, passState specHelpers exampleClock
          (exampleTracking (exampleTrajectory true 0) (exampleTrajectory true 0)) 0 examplePose,
          (tAlong specHelpers exampleClock (exampleTrajectory true 0)
            (exampleTracking (exampleTrajectory true 0) (exampleTrajectory true 0)) 0
            examplePose).2) :=
  (GetControl_horizon_check specHelpers exampleClock 0
    (exampleTracking (exampleTrajectory true 0) (exampleTrajectory true 0)) 0 examplePose
    (exampleTrajectory true 0) rfl).2.2 (by simp [tAlong, exampleTrajectory])

/-- The reduction to the signed 64-bit range is the identity on that range. -/
theorem wrapInt64_of_fits (x : ℤ) (hlo : -2 ^ 63 ≤ x) (hhi : x < 2 ^ 63) : wrapInt64 x = x := by
  unfold wrapInt64
  omega

/-- C16 (as stated, refuted): frame initialization at the example pose, position
(1, 2, 3), seeds `last_state_` with the state vector `(1, 2, 3, 0, 0, 0)` of the pose,
which is not the zero vector. -/
theorem InitializeState_seed_not_zero :
    (InitializeState specHelpers exampleClock
        (exampleTracking (exampleTrajectory true 0) (exampleTrajectory true 0)) 0
        examplePose).1.last_state_ = [1, 2, 3, 0, 0, 0] ∧
    ([1, 2, 3, 0, 0, 0] : VectorXd) ≠ [0, 0, 0, 0, 0, 0] := by
  constructor
  · norm_num [InitializeState, specHelpers, examplePose]
  · norm_num

/-- C16 (amended): for every pose, frame initialization seeds `last_state_` with the
state-estimator vector of the pose, the same vector it stores as `initial_state_`
(global frame, before the origin is subtracted and the rotation applied), and sets
`state_initialized_` to true. -/
theorem InitializeState_seeds_last_state (h : Helpers) (clock : ℕ → ℤ) (self : TvlqrControl)
    (k : ℕ) (msg : mav_pose_t) :
    (InitializeState h clock self k msg).1.last_state_ = h.PoseMsgToStateEstimatorVector msg ∧
    (InitializeState h clock self k msg).1.last_state_
      = (InitializeState h clock self k msg).1.initial_state_ ∧
    (InitializeState h clock self k msg).1.state_initialized_ = true :=
  ⟨rfl, rfl, rfl⟩

/-- C17 (as stated, refuted): a run `SetTrajectory`, `GetControl` at roll 2,
`SetTrajectory`, `GetControl` at roll -2 under a time-invariant trajectory (no
trajectory switch).  Before the last call `last_state_(3)` is 2, after it -2: the
new value is not within half a turn (`M_PI`) of the value held before the call. -/
theorem last_state_far_from_previous_after_init :
    (runCalls specHelpers exampleClock 1
        [Call.setTrajectory (exampleTrajectory true 0), Call.getControl (exampleRolledPose 2),
          Call.setTrajectory (exampleTrajectory true 0)]
        (constructed exampleConverter (exampleTrajectory true 0) (fun _ _ => 0) 0)).map
      (fun s => s.control.last_state_.getD 3 0) = some 2 ∧
    (runCalls specHelpers exampleClock 1
        [Call.setTrajectory (exampleTrajectory true 0), Call.getControl (exampleRolledPose 2),
          Call.setTrajectory (exampleTrajectory true 0),
          Call.getControl (exampleRolledPose (-2))]
        (constructed exampleConverter (exampleTrajectory true 0) (fun _ _ => 0) 0)).map
      (fun s => s.control.last_state_.getD 3 0) = some (-2) ∧
    ¬ |(-2 : ℚ) - 2| ≤ 2 * M_PI / 2 := by
  refine ⟨?_, ?_, ?_⟩
  · norm_num [runCalls, stepCall, constructed, GetControl, InitializeState, GetStateMinusInit,
      SetTrajectory, TvlqrControl.new, exampleTrajectory, exampleConverter, exampleClock,
      examplePose, exampleRolledPose, specHelpers, specAngleUnwrap, vadd, vsub, mulVec, dot]
  · norm_num [runCalls, stepCall, constructed, GetControl, InitializeState, GetStateMinusInit,
      SetTrajectory, TvlqrControl.new, exampleTrajectory, exampleConverter, exampleClock,
      examplePose, exampleRolledPose, specHelpers, specAngleUnwrap, vadd, vsub, mulVec, dot]
  · rw [abs_of_neg (by norm_num)]
    norm_num [M_PI]

/-- C17 (amended): after a `GetControl` call with a non-null trajectory that stays
within the horizon (no switch), with `AngleUnwrap` meeting the spec's contract and a
six-component state, `last_state_` is the corrected frame-relative state of the call:
components 0-2 are the raw frame-relative position, and each attitude component
`i` in {3,4,5} differs from the raw component by a whole number of full turns and is
within half a turn of the value `last_state_(i)` held when the unwrapping ran: the
value before the call when the frame was initialized, component `i` of the freshly
captured initial state when the call initialized the frame. -/
theorem GetControl_stores_corrected_state (h : Helpers) (clock : ℕ → ℤ) (turn : ℚ)
    (hU : UnwrapContract turn h.AngleUnwrap) (fuel : ℕ) (self : TvlqrControl) (k : ℕ)
    (msg : mav_pose_t) (traj : Trajectory)
    (hcur : self.current_trajectory_ = some traj)
    (hin : (tAlong h clock traj self k msg).1 ≤ traj.GetMaxTime)
    (hlen : 6 ≤ (GetStateMinusInit h (frameInit h clock self k msg).1 msg).length) :
    ∃ (cmd : VectorXi) (c : TvlqrControl) (j : ℕ),
      GetControl h clock (fuel + 1) self k msg = some (cmd, c, j) ∧
      c.last_state_ = unwrappedState h (frameInit h clock self k msg).1 msg ∧
      (∀ i : ℕ, i < 3 → c.last_state_.getD i 0
        = (GetStateMinusInit h (frameInit h clock self k msg).1 msg).getD i 0) ∧
      (∀ i : ℕ, i = 3 ∨ i = 4 ∨ i = 5 →
        (∃ n : ℤ, c.last_state_.getD i 0
          = (GetStateMinusInit h (frameInit h clock self k msg).1 msg).getD i 0 + n * turn) ∧
        (self.state_initialized_ = true →
          |c.last_state_.getD i 0 - self.last_state_.getD i 0| ≤ turn / 2) ∧
        (self.state_initialized_ = false →
          |c.last_state_.getD i 0 - (h.PoseMsgToStateEstimatorVector msg).getD i 0|
            ≤ turn / 2)) := by
  have e := GetControl_pass h clock fuel self k msg traj hcur
  rw [if_pos hin] at e
  refine ⟨_, _, _, e, rfl, fun i hi => ?_, fun i hi => ?_⟩
  · exact unwrappedState_other h _ msg i (by omega) (by omega) (by omega)
  · have hatt : (passState h clock self k msg).last_state_.getD i 0
        = h.AngleUnwrap ((GetStateMinusInit h (frameInit h clock self k msg).1 msg).getD i 0)
            ((frameInit h clock self k msg).1.last_state_.getD i 0) :=
      unwrappedState_attitude h _ msg hlen i hi
    obtain ⟨hn, hclose⟩ := hU
      ((GetStateMinusInit h (frameInit h clock self k msg).1 msg).getD i 0)
      ((frameInit h clock self k msg).1.last_state_.getD i 0)
    rw [← hatt] at hn hclose
    refine ⟨hn, fun hinit => ?_, fun hinit => ?_⟩
    · rw [frameInit_of_initialized h clock self k msg hinit] at hclose
      exact hclose
    · rw [frameInit_of_uninitialized h clock self k msg hinit] at hclose
      exact hclose

/-- Witness for C17 (amended): the first call after `SetTrajectory` at roll 2. -/
theorem GetControl_stores_corrected_state_witness :
    ∃ (cmd : VectorXi) (c : TvlqrControl) (j : ℕ),
      GetControl specHelpers exampleClock 1
        (exampleTracking (exampleTrajectory true 0) (exampleTrajectory true 0)) 0
        (exampleRolledPose 2) = some (cmd, c, j) ∧
      ∃ n : ℤ, c.last_state_.getD 3 0
        = (GetStateMinusInit specHelpers
            (frameInit specHelpers exampleClock
              (exampleTracking (exampleTrajectory true 0) (exampleTrajectory true 0)) 0
              (exampleRolledPose 2)).1 (exampleRolledPose 2)).getD 3 0 + n * (2 * M_PI) := by
  obtain ⟨cmd, c, j, hret, -, -, hatt⟩ :=
    GetControl_stores_corrected_state specHelpers exampleClock (2 * M_PI)
      (specAngleUnwrap_contract (2 * M_PI) (by norm_num [M_PI])) 0
      (exampleTracking (exampleTrajectory true 0) (exampleTrajectory true 0)) 0
      (exampleRolledPose 2) (exampleTrajectory true 0) rfl
      (by simp [tAlong, exampleTrajectory]) (by simp [GetStateMinusInit, specHelpers])
  exact ⟨cmd, c, j, hret, (hatt 3 (Or.inl rfl)).1⟩

/-- Under the contract, unwrapping an angle against its own unwrapped value changes
nothing. -/
theorem unwrap_idempotent (turn : ℚ) (hturn : 0 < turn) (f : ℚ → ℚ → ℚ)
    (hU : UnwrapContract turn f) (r p : ℚ) : f r (f r p) = f r p := by
  obtain ⟨⟨m, hm⟩, -⟩ := hU r p
  have := unwrap_step turn hturn f hU r r (f r p) 0 m 0 hm (by simp) (by simpa using hturn)
  simpa using this

/-- The entries of the unwrapped state: at an attitude index inside the raw state the
unwrapped raw entry, elsewhere the raw entry. -/
theorem unwrappedState_getElem? (h : Helpers) (c : TvlqrControl) (msg : mav_pose_t) (i : ℕ) :
    (unwrappedState h c msg)[i]?
      = if i = 3 ∨ i = 4 ∨ i = 5 then
          (if i < (GetStateMinusInit h c msg).length then
            some (h.AngleUnwrap ((GetStateMinusInit h c msg).getD i 0) (c.last_state_.getD i 0))
          else none)
        else (GetStateMinusInit h c msg)[i]? := by
  unfold unwrappedState
  by_cases i3 : i = 3
  · subst i3
    simp [List.getD_eq_getElem?_getD, List.getElem?_set]
  · by_cases i4 : i = 4
    · subst i4
      simp [List.getD_eq_getElem?_getD, List.getElem?_set]
    · by_cases i5 : i = 5
      · subst i5
        simp [List.getD_eq_getElem?_getD, List.getElem?_set]
      · simp [List.getElem?_set, i3, i4, i5, Ne.symm i3, Ne.symm i4, Ne.symm i5]

/-- Unwrapping the same raw state against the unwrapped state gives the unwrapped
state again. -/
theorem unwrappedState_idempotent (h : Helpers) (turn : ℚ) (hturn : 0 < turn)
    (hU : UnwrapContract turn h.AngleUnwrap) (c c1 : TvlqrControl) (msg : mav_pose_t)
    (hraw : GetStateMinusInit h c1 msg = GetStateMinusInit h c msg)
    (hlast : c1.last_state_ = unwrappedState h c msg) :
    unwrappedState h c1 msg = unwrappedState h c msg := by
  apply List.ext_getElem?
  intro i
  rw [unwrappedState_getElem? h c1 msg i, unwrappedState_getElem? h c msg i, hraw]
  by_cases hi : i = 3 ∨ i = 4 ∨ i = 5
  · by_cases hlt : i < (GetStateMinusInit h c msg).length
    · have hval : c1.last_state_.getD i 0
          = h.AngleUnwrap ((GetStateMinusInit h c msg).getD i 0) (c.last_state_.getD i 0) := by
        rw [hlast, List.getD_eq_getElem?_getD, unwrappedState_getElem? h c msg i, if_pos hi,
          if_pos hlt]
        rfl
      simp only [if_pos hi, if_pos hlt, hval, unwrap_idempotent turn hturn h.AngleUnwrap hU]
    · simp only [if_pos hi, if_neg hlt]
  · rw [if_neg hi, if_neg hi]

/-- A pass does not change the converter. -/
theorem passState_converter (h : Helpers) (clock : ℕ → ℤ) (self : TvlqrControl) (k : ℕ)
    (msg : mav_pose_t) : (passState h clock self k msg).converter_ = self.converter_ := by
  unfold passState frameInit InitializeState
  split <;> rfl

/-- C18: for a time-invariant active trajectory with `GetMaxTime() >= 0`, every pose `p`
and `AngleUnwrap` meeting the spec's contract, a second `GetControl(p)` issued
immediately after a first `GetControl(p)` returns the same command as the first and
leaves the controller (every member variable) and the clock cursor as the first call
left them. -/
theorem GetControl_repeat_same_pose (h : Helpers) (clock : ℕ → ℤ) (turn : ℚ) (hturn : 0 < turn)
    (hU : UnwrapContract turn h.AngleUnwrap) (fuel1 fuel2 : ℕ) (self : TvlqrControl) (k : ℕ)
    (p : mav_pose_t) (traj : Trajectory)
    (hcur : self.current_trajectory_ = some traj)
    (hTI : traj.IsTimeInvariant = true) (hmax : 0 ≤ traj.GetMaxTime) :
    ∃ (cmd : VectorXi) (c1 : TvlqrControl) (k1 : ℕ),
      GetControl h clock (fuel1 + 1) self k p = some (cmd, c1, k1) ∧
      GetControl h clock (fuel2 + 1) c1 k1 p = some (cmd, c1, k1) := by
  have e1 := GetControl_pass h clock fuel1 self k p traj hcur
  rw [tAlong_timeInvariant h clock traj self k p hTI, if_pos hmax] at e1
  have hcur1 : (passState h clock self k p).current_trajectory_ = some traj := by
    rw [passState_current_trajectory, hcur]
  have hinit1 := passState_initialized h clock self k p
  have hfr := frameInit_of_initialized h clock (passState h clock self k p)
    (frameInit h clock self k p).2 p hinit1
  have hidem : unwrappedState h (passState h clock self k p) p
      = unwrappedState h (frameInit h clock self k p).1 p :=
    unwrappedState_idempotent h turn hturn hU _ _ p rfl rfl
  have hpass : passState h clock (passState h clock self k p) (frameInit h clock self k p).2 p
      = passState h clock self k p := by
    have : passState h clock (passState h clock self k p) (frameInit h clock self k p).2 p
        = { passState h clock self k p with
            last_state_ := unwrappedState h (passState h clock self k p) p } := by
      have hdef : ∀ (c : TvlqrControl) (j : ℕ), passState h clock c j p
          = { (frameInit h clock c j p).1 with
              last_state_ := unwrappedState h (frameInit h clock c j p).1 p } := fun _ _ => rfl
      rw [hdef (passState h clock self k p), hfr]
    rw [this, hidem]
    rfl
  have e2 := GetControl_pass h clock fuel2 (passState h clock self k p)
    (frameInit h clock self k p).2 p traj hcur1
  rw [tAlong_timeInvariant h clock traj _ _ p hTI, if_pos hmax, hfr, hpass, hidem,
    passState_converter] at e2
  exact ⟨_, _, _, e1, e2⟩

/-- Witness for C18: the example pose twice under a time-invariant trajectory with
maximum time 0. -/
theorem GetControl_repeat_same_pose_witness :
    ∃ (cmd : VectorXi) (c1 : TvlqrControl) (k1 : ℕ),
      GetControl specHelpers exampleClock 1
        (exampleTracking (exampleTrajectory true 0) (exampleTrajectory true 0)) 0 examplePose
        = some (cmd, c1, k1) ∧
      GetControl specHelpers exampleClock 1 c1 k1 examplePose = some (cmd, c1, k1) :=
  GetControl_repeat_same_pose specHelpers exampleClock (2 * M_PI) (by norm_num [M_PI])
    (specAngleUnwrap_contract (2 * M_PI) (by norm_num [M_PI])) 0 0
    (exampleTracking (exampleTrajectory true 0) (exampleTrajectory true 0)) 0 examplePose
    (exampleTrajectory true 0) rfl rfl (by simp [exampleTrajectory])

/-- `GetControl` on an initialized controller tracking a time-invariant trajectory with
non-negative maximum time: one pass, no clock reading, only `last_state_` changes. -/
theorem GetControl_tracking_timeInvariant (h : Helpers) (clock : ℕ → ℤ) (fuel : ℕ)
    (c : TvlqrControl) (k : ℕ) (msg : mav_pose_t) (T : Trajectory)
    (hcur : c.current_trajectory_ = some T) (hinit : c.state_initialized_ = true)
    (hTI : T.IsTimeInvariant = true) (hmax : 0 ≤ T.GetMaxTime) :
    GetControl h clock (fuel + 1) c k msg
      = some (c.converter_.RadiansToServoCommands (commandInRad T 0 (unwrappedState h c msg)),
              { c with last_state_ := unwrappedState h c msg }, k) := by
  have hdef : passState h clock c k msg
      = { (frameInit h clock c k msg).1 with
          last_state_ := unwrappedState h (frameInit h clock c k msg).1 msg } := rfl
  rw [GetControl_pass h clock fuel c k msg T hcur, tAlong_timeInvariant h clock T c k msg hTI,
    if_pos hmax, hdef, frameInit_of_initialized h clock c k msg hinit]

/-- A run of `GetControl` calls alone, from an initialized controller tracking a
time-invariant trajectory with non-negative maximum time, returns and keeps the
trajectory, the captured origin, the heading rotation and the start time. -/
theorem runCalls_getControl_timeInvariant (h : Helpers) (clock : ℕ → ℤ) (fuel : ℕ)
    (T : Trajectory) (hTI : T.IsTimeInvariant = true) (hmax : 0 ≤ T.GetMaxTime) :
    ∀ (msgs : List mav_pose_t) (s0 : RunState), s0.control.current_trajectory_ = some T →
      s0.control.state_initialized_ = true →
      ∃ s, runCalls h clock (fuel + 1) (msgs.map Call.getControl) s0 = some s ∧
        s.control.current_trajectory_ = some T ∧ s.control.state_initialized_ = true ∧
        s.control.initial_state_ = s0.control.initial_state_ ∧ s.control.Mz_ = s0.control.Mz_ ∧
        s.control.t0_ = s0.control.t0_ := by
  intro msgs
  induction msgs with
  | nil => intro s0 hcur hinit; exact ⟨s0, rfl, hcur, hinit, rfl, rfl, rfl⟩
  | cons m ms ih =>
    intro s0 hcur hinit
    have hg := GetControl_tracking_timeInvariant h clock fuel s0.control s0.cursor m T hcur hinit
      hTI hmax
    obtain ⟨s, hs, h1, h2, h3, h4, h5⟩ := ih
      { control := { s0.control with last_state_ := unwrappedState h s0.control m },
        cursor := s0.cursor,
        poseProcessed := s0.control.current_trajectory_.isSome || s0.poseProcessed } hcur hinit
    refine ⟨s, ?_, h1, h2, h3, h4, h5⟩
    rw [List.map_cons, runCalls]
    simp only [stepCall, hg]
    exact hs

/-- C19: with a stabilizing trajectory that is time-invariant and has
`GetMaxTime() >= 0`, a `GetControl` call that takes the horizon-exceeded branch returns
with `current_trajectory_ = stable_controller_` and `state_initialized_` true, and every
later sequence of `GetControl` calls alone (no `SetTrajectory`) returns in a state
where `current_trajectory_` is still the stabilizing trajectory and origin, heading
rotation and `t0_` are those captured at the switch. -/
theorem stabilizing_trajectory_absorbing (h : Helpers) (clock : ℕ → ℤ) (fuel : ℕ)
    (self : TvlqrControl) (k : ℕ) (msg : mav_pose_t) (traj : Trajectory)
    (hcur : self.current_trajectory_ = some traj)
    (hexp : traj.GetMaxTime < (tAlong h clock traj self k msg).1)
    (hTI : self.stable_controller_.IsTimeInvariant = true)
    (hmax : 0 ≤ self.stable_controller_.GetMaxTime) :
    ∃ (cmd : VectorXi) (cA : TvlqrControl) (kA : ℕ),
      GetControl h clock (fuel + 2) self k msg = some (cmd, cA, kA) ∧
      cA.current_trajectory_ = some self.stable_controller_ ∧
      cA.state_initialized_ = true ∧
      cA.initial_state_ = h.PoseMsgToStateEstimatorVector msg ∧
      cA.Mz_ = h.rotz (-(h.bot_quat_to_roll_pitch_yaw msg.orientation).2.2) ∧
      cA.t0_ = clock (tAlong h clock traj self k msg).2 ∧
      ∀ (msgs : List mav_pose_t) (n : ℕ) (b : Bool),
        ∃ s, runCalls h clock (n + 1) (msgs.map Call.getControl)
              { control := cA, cursor := kA, poseProcessed := b } = some s ∧
          s.control.current_trajectory_ = some self.stable_controller_ ∧
          s.control.state_initialized_ = true ∧
          s.control.initial_state_ = cA.initial_state_ ∧ s.control.Mz_ = cA.Mz_ ∧
          s.control.t0_ = cA.t0_ := by
  have hA := GetControl_fresh_timeInvariant h clock fuel
    (SetTrajectory (passState h clock self k msg) self.stable_controller_)
    (tAlong h clock traj self k msg).2 msg self.stable_controller_ rfl rfl hTI hmax
  have e := GetControl_pass h clock (fuel + 1) self k msg traj hcur
  rw [if_neg (not_le.mpr hexp), hA] at e
  refine ⟨_, _, _, e, rfl, rfl, rfl, rfl, rfl, fun msgs n b => ?_⟩
  exact runCalls_getControl_timeInvariant h clock n self.stable_controller_ hTI hmax msgs
    { control := capturedControl h
        (SetTrajectory (passState h clock self k msg) self.stable_controller_)
        (clock (tAlong h clock traj self k msg).2) msg,
      cursor := (tAlong h clock traj self k msg).2 + 1, poseProcessed := b } rfl rfl

/-- Witness for C19: an expired time-varying trajectory over a time-invariant
stabilizing trajectory with maximum time 0, followed by two more poses. -/
theorem stabilizing_trajectory_absorbing_witness :
    ∃ (cmd : VectorXi) (cA : TvlqrControl) (kA : ℕ),
      GetControl specHelpers exampleClock 2
        (exampleTracking (exampleTrajectory false 0) (exampleTrajectory true 0)) 0 examplePose
        = some (cmd, cA, kA) ∧
      ∃ s, runCalls specHelpers exampleClock 1
            [Call.getControl exampleMovedPose, Call.getControl examplePose]
            { control := cA, cursor := kA, poseProcessed := true } = some s ∧
        s.control.current_trajectory_ = some (exampleTrajectory true 0) ∧
        s.control.initial_state_ = cA.initial_state_ := by
  obtain ⟨cmd, cA, kA, hret, -, -, -, -, -, hlater⟩ :=
    stabilizing_trajectory_absorbing specHelpers exampleClock 0
      (exampleTracking (exampleTrajectory false 0) (exampleTrajectory true 0)) 0 examplePose
      (exampleTrajectory false 0) rfl
      (by norm_num [tAlong, frameInit, passState, GetTNow, wrapInt64, exampleTracking,
        exampleControl, TvlqrControl.new, SetTrajectory, InitializeState, exampleClock,
        exampleTrajectory])
      rfl
      (by simp [exampleTracking, exampleControl, TvlqrControl.new, SetTrajectory,
        exampleTrajectory])
  obtain ⟨s, hs, h1, -, h3, -⟩ := hlater [exampleMovedPose, examplePose] 0 true
  exact ⟨cmd, cA, kA, hret, s, hs, h1, h3⟩

/-- The clock cursor does not go back over the conditional frame capture, and the
time query does not move it back either. -/
theorem pass_cursor_le (h : Helpers) (clock : ℕ → ℤ) (traj : Trajectory) (self : TvlqrControl)
    (k : ℕ) (msg : mav_pose_t) :
    k ≤ (frameInit h clock self k msg).2 ∧
    (frameInit h clock self k msg).2 ≤ (tAlong h clock traj self k msg).2 := by
  constructor
  · unfold frameInit InitializeState
    split
    · exact Nat.le_succ k
    · exact le_refl k
  · unfold tAlong GetTNow
    split
    · exact le_refl _
    · exact Nat.le_succ _

/-- A `GetControl` call that starts with the frame not initialized and a non-null
trajectory ends, when it returns, with `t0_` a clock reading taken during the call. -/
theorem GetControl_uninitialized_t0 (h : Helpers) (clock : ℕ → ℤ) (msg : mav_pose_t) :
    ∀ (fuel : ℕ) (c : TvlqrControl) (k : ℕ) (T : Trajectory)
      (r : VectorXi × TvlqrControl × ℕ),
      c.current_trajectory_ = some T → c.state_initialized_ = false →
      GetControl h clock fuel c k msg = some r →
      ∃ j : ℕ, k ≤ j ∧ j < r.2.2 ∧ r.2.1.t0_ = clock j := by
  intro fuel
  induction fuel with
  | zero => intro c k T r _ _ hret; simp [GetControl] at hret
  | succ n ih =>
    intro c k T r hcur hinit hret
    have hcursor := (pass_cursor_le h clock T c k msg).2
    rw [frameInit_of_uninitialized h clock c k msg hinit] at hcursor
    have hk : k + 1 ≤ (tAlong h clock T c k msg).2 := hcursor
    rw [GetControl_pass h clock n c k msg T hcur] at hret
    split at hret
    · rw [passState_of_uninitialized h clock c k msg hinit] at hret
      cases hret
      exact ⟨k, le_refl k, hk, rfl⟩
    · obtain ⟨j, hj1, hj2, hj3⟩ := ih _ _ c.stable_controller_ r rfl rfl hret
      exact ⟨j, by omega, hj2, hj3⟩

/-- C13 (amended): with a non-null trajectory, the first `GetControl` call after
`SetTrajectory` (frame not initialized) assigns the origin and heading rotation from
its pose and `t0_` from a clock reading taken during the call (the reading at entry
when the call stays within the horizon); a later call (frame initialized) that stays
within the horizon leaves origin, heading rotation and `t0_` unchanged; a later call
that takes the horizon-exceeded branch assigns the origin and heading rotation again
from its own pose and `t0_` from a clock reading taken during that call (the reading
right after the time query when the stabilizing trajectory is time-invariant with
`GetMaxTime() >= 0`, in which case the call returns). -/
theorem frame_assigned_by_first_call (h : Helpers) (clock : ℕ → ℤ) (fuel : ℕ)
    (self : TvlqrControl) (k : ℕ) (msg : mav_pose_t) (traj : Trajectory)
    (hcur : self.current_trajectory_ = some traj) :
    (self.state_initialized_ = false →
      (∀ (n : ℕ) (r : VectorXi × TvlqrControl × ℕ), GetControl h clock n self k msg = some r →
        r.2.1.initial_state_ = h.PoseMsgToStateEstimatorVector msg ∧
        r.2.1.Mz_ = h.rotz (-(h.bot_quat_to_roll_pitch_yaw msg.orientation).2.2) ∧
        ∃ j : ℕ, k ≤ j ∧ j < r.2.2 ∧ r.2.1.t0_ = clock j) ∧
      ((tAlong h clock traj self k msg).1 ≤ traj.GetMaxTime →
        ∃ cmd c, GetControl h clock (fuel + 1) self k msg
            = some (cmd, c, (tAlong h clock traj self k msg).2) ∧
          c = capturedControl h self (clock k) msg ∧
          c.initial_state_ = h.PoseMsgToStateEstimatorVector msg ∧ c.t0_ = clock k)) ∧
    (self.state_initialized_ = true → (tAlong h clock traj self k msg).1 ≤ traj.GetMaxTime →
      ∃ cmd c j, GetControl h clock (fuel + 1) self k msg = some (cmd, c, j) ∧
        c.initial_state_ = self.initial_state_ ∧ c.Mz_ = self.Mz_ ∧ c.t0_ = self.t0_) ∧
    (self.state_initialized_ = true → traj.GetMaxTime < (tAlong h clock traj self k msg).1 →
      (∀ (n : ℕ) (r : VectorXi × TvlqrControl × ℕ), GetControl h clock (n + 1) self k msg = some r →
        r.2.1.initial_state_ = h.PoseMsgToStateEstimatorVector msg ∧
        r.2.1.Mz_ = h.rotz (-(h.bot_quat_to_roll_pitch_yaw msg.orientation).2.2) ∧
        ∃ j : ℕ, (tAlong h clock traj self k msg).2 ≤ j ∧ j < r.2.2 ∧ r.2.1.t0_ = clock j) ∧
      (self.stable_controller_.IsTimeInvariant = true → 0 ≤ self.stable_controller_.GetMaxTime →
        ∃ cmd c, GetControl h clock (fuel + 2) self k msg
            = some (cmd, c, (tAlong h clock traj self k msg).2 + 1) ∧
          c.initial_state_ = h.PoseMsgToStateEstimatorVector msg ∧
          c.Mz_ = h.rotz (-(h.bot_quat_to_roll_pitch_yaw msg.orientation).2.2) ∧
          c.t0_ = clock (tAlong h clock traj self k msg).2)) := by
  refine ⟨fun hinit => ⟨fun n r hret => ?_, fun hle => ?_⟩, fun hinit hle => ?_,
    fun hinit hgt => ⟨fun n r hret => ?_, fun hTI hmax => ?_⟩⟩
  · obtain ⟨h1, h2, -⟩ := GetControl_uninitialized_captures h clock msg n self k traj r hcur
      hinit hret
    exact ⟨h1, h2, GetControl_uninitialized_t0 h clock msg n self k traj r hcur hinit hret⟩
  · have e := GetControl_pass h clock fuel self k msg traj hcur
    rw [if_pos hle, passState_of_uninitialized h clock self k msg hinit] at e
    exact ⟨_, _, e, rfl, rfl, rfl⟩
  · have e := GetControl_pass h clock fuel self k msg traj hcur
    rw [if_pos hle] at e
    obtain ⟨h1, h2, h3, -⟩ := passState_frame_of_initialized h clock self k msg hinit
    exact ⟨_, _, _, e, h1, h2, h3⟩
  · rw [GetControl_pass h clock n self k msg traj hcur, if_neg (not_le.mpr hgt)] at hret
    obtain ⟨h1, h2, -⟩ := GetControl_uninitialized_captures h clock msg n _ _
      self.stable_controller_ r rfl rfl hret
    exact ⟨h1, h2, GetControl_uninitialized_t0 h clock msg n _ _ self.stable_controller_ r rfl
      rfl hret⟩
  · have hA := GetControl_fresh_timeInvariant h clock fuel
      (SetTrajectory (passState h clock self k msg) self.stable_controller_)
      (tAlong h clock traj self k msg).2 msg self.stable_controller_ rfl rfl hTI hmax
    have e := GetControl_pass h clock (fuel + 1) self k msg traj hcur
    rw [if_neg (not_le.mpr hgt), hA] at e
    exact ⟨_, _, e, rfl, rfl, rfl⟩

/-- Witness for C13 (amended): a controller that captured its frame at the example pose
(origin (1, 2, 3), `t0_ = 0`) under a time-varying trajectory with maximum time 1 s
receives the moved pose two seconds later: the horizon-exceeded branch assigns the
origin (7, 8, 9) and `t0_ = 3000000`, the clock reading after the time query. -/
theorem frame_assigned_by_first_call_witness :
    ∃ cmd c, GetControl specHelpers exampleClock 2
        (capturedControl specHelpers
          (exampleTracking (exampleTrajectory false 1) (exampleTrajectory true 0)) 0 examplePose)
        2 exampleMovedPose = some (cmd, c, 4) ∧
      c.initial_state_ = [7, 8, 9, 0, 0, 0] ∧ c.t0_ = 3000000 := by
  have ht : tAlong specHelpers exampleClock (exampleTrajectory false 1)
      (capturedControl specHelpers
        (exampleTracking (exampleTrajectory false 1) (exampleTrajectory true 0)) 0 examplePose)
      2 exampleMovedPose = (2, 3) := by
    norm_num [tAlong, frameInit, passState, GetTNow, wrapInt64, capturedControl, exampleTracking,
      exampleControl, TvlqrControl.new, SetTrajectory, exampleClock, exampleTrajectory]
  obtain ⟨cmd, c, hret, h1, -, h3⟩ :=
    ((frame_assigned_by_first_call specHelpers exampleClock 0
      (capturedControl specHelpers
        (exampleTracking (exampleTrajectory false 1) (exampleTrajectory true 0)) 0 examplePose)
      2 exampleMovedPose (exampleTrajectory false 1) rfl).2.2 rfl
      (by rw [ht]; norm_num [exampleTrajectory])).2 rfl
      (by simp [capturedControl, exampleTracking, exampleControl, TvlqrControl.new,
        SetTrajectory, exampleTrajectory])
  rw [ht] at hret h3
  exact ⟨cmd, c, hret,
    h1.trans (by norm_num [specHelpers, exampleMovedPose, examplePose]),
    h3.trans (by norm_num [exampleClock])⟩

/-- A `GetControl` call keeps the invariant that the start time of an initialized
frame is a clock reading taken earlier, and does not move the cursor back. -/
theorem GetControl_t0_past (h : Helpers) (clock : ℕ → ℤ) (msg : mav_pose_t) (fuel : ℕ)
    (c : TvlqrControl) (k : ℕ) (r : VectorXi × TvlqrControl × ℕ)
    (hpast : c.state_initialized_ = true → ∃ i : ℕ, i < k ∧ c.t0_ = clock i)
    (hret : GetControl h clock fuel c k msg = some r) :
    r.2.1.state_initialized_ = true → ∃ i : ℕ, i < r.2.2 ∧ r.2.1.t0_ = clock i := by
  intro _
  cases hcur : c.current_trajectory_ with
  | none =>
    obtain ⟨h1, h2⟩ := GetControl_null_state h clock msg fuel c k r hcur hret
    rw [h1, h2]
    apply hpast
    rw [← h1]
    assumption
  | some T =>
    cases hinit : c.state_initialized_ with
    | false =>
      obtain ⟨j, -, hj2, hj3⟩ := GetControl_uninitialized_t0 h clock msg fuel c k T r hcur hinit
        hret
      exact ⟨j, hj2, hj3⟩
    | true =>
      cases fuel with
      | zero => simp [GetControl] at hret
      | succ n =>
        have hc := pass_cursor_le h clock T c k msg
        rw [GetControl_pass h clock n c k msg T hcur] at hret
        split at hret
        · cases hret
          obtain ⟨i, hi1, hi2⟩ := hpast hinit
          obtain ⟨-, -, h3, -⟩ := passState_frame_of_initialized h clock c k msg hinit
          exact ⟨i, show i < (tAlong h clock T c k msg).2 by omega, h3.trans hi2⟩
        · obtain ⟨j, -, hj2, hj3⟩ := GetControl_uninitialized_t0 h clock msg n _ _
            c.stable_controller_ r rfl rfl hret
          exact ⟨j, hj2, hj3⟩

/-- In every state of a run that starts with the invariant, the start time of an
initialized frame is a clock reading taken earlier in the run. -/
theorem runCalls_t0_past (h : Helpers) (clock : ℕ → ℤ) (fuel : ℕ) :
    ∀ (calls : List Call) (s0 s : RunState),
      (s0.control.state_initialized_ = true → ∃ i : ℕ, i < s0.cursor ∧ s0.control.t0_ = clock i) →
      runCalls h clock fuel calls s0 = some s →
      s.control.state_initialized_ = true → ∃ i : ℕ, i < s.cursor ∧ s.control.t0_ = clock i := by
  intro calls
  induction calls with
  | nil =>
    intro s0 s hpast hrun
    simp [runCalls] at hrun
    rw [← hrun]
    exact hpast
  | cons c cs ih =>
    intro s0 s hpast hrun
    rw [runCalls] at hrun
    cases hstep : stepCall h clock fuel s0 c with
    | none => simp [hstep] at hrun
    | some s1 =>
      simp only [hstep] at hrun
      refine ih s1 s ?_ hrun
      cases c with
      | setTrajectory T =>
        simp only [stepCall, Option.some.injEq] at hstep
        rw [← hstep]
        intro hinit
        simp [SetTrajectory] at hinit
      | getControl msg =>
        simp only [stepCall] at hstep
        cases hg : GetControl h clock fuel s0.control s0.cursor msg with
        | none => simp [hg] at hstep
        | some r =>
          simp only [hg, Option.some.injEq] at hstep
          rw [← hstep]
          exact GetControl_t0_past h clock msg fuel _ _ r hpast hg

/-- An example run: construction, `SetTrajectory` of a time-varying trajectory with
maximum time 1 s, then one `GetControl` one second after the frame capture. -/
theorem exampleRun_timeVarying :
    runCalls specHelpers exampleClock 1
      [Call.setTrajectory (exampleTrajectory false 1), Call.getControl examplePose]
      (constructed exampleConverter (exampleTrajectory true 0) (fun _ _ => 0) 0)
      = some { control := capturedControl specHelpers
                 (SetTrajectory
                   (TvlqrControl.new exampleConverter (exampleTrajectory true 0) (fun _ _ => 0))
                   (exampleTrajectory false 1)) 0 examplePose,
               cursor := 2, poseProcessed := true } := by
  have ht : tAlong specHelpers exampleClock (exampleTrajectory false 1)
      (SetTrajectory (TvlqrControl.new exampleConverter (exampleTrajectory true 0) (fun _ _ => 0))
        (exampleTrajectory false 1)) 0 examplePose = (1, 2) := by
    norm_num [tAlong, frameInit, passState, GetTNow, wrapInt64, TvlqrControl.new, SetTrajectory,
      InitializeState, exampleClock, exampleTrajectory]
  have hg := GetControl_pass specHelpers exampleClock 0
    (SetTrajectory (TvlqrControl.new exampleConverter (exampleTrajectory true 0) (fun _ _ => 0))
      (exampleTrajectory false 1)) 0 examplePose (exampleTrajectory false 1) rfl
  rw [ht, if_pos (by norm_num [exampleTrajectory]),
    passState_of_uninitialized specHelpers exampleClock _ 0 examplePose rfl] at hg
  simp only [runCalls, stepCall, constructed, hg]
  simp [SetTrajectory, exampleClock]

/-- C15: in every state reached from the constructor in which the active trajectory is
time-varying, with the clock readings taken so far being timestamps in
`[0, 2^63)`, the time-along-trajectory that `GetControl` compares with `GetMaxTime()`
and passes to the trajectory is `(now - t0_) / 1000000`, with `now` the clock reading
of `GetTNow` and `t0_` the start time after the conditional frame capture (integer
microseconds, exact quotient).  It is non-negative whenever the clock is monotonic,
on initializing and on later calls alike, and it is 0 on the initializing call when
the clock does not advance between the frame capture and the time query. -/
theorem timeVarying_time_along_trajectory (h : Helpers) (clock : ℕ → ℤ) (fuel n : ℕ)
    (converter : ServoConverter) (stable_controller : Trajectory) (Mz : Matrix3d) (k0 : ℕ)
    (calls : List Call) (s : RunState) (msg : mav_pose_t) (traj : Trajectory)
    (hrun : runCalls h clock fuel calls (constructed converter stable_controller Mz k0) = some s)
    (hcur : s.control.current_trajectory_ = some traj)
    (hTV : traj.IsTimeInvariant = false)
    (hrange : ∀ j : ℕ, j ≤ (frameInit h clock s.control s.cursor msg).2 →
      0 ≤ clock j ∧ clock j < 2 ^ 63) :
    (tAlong h clock traj s.control s.cursor msg).1
      = ((clock (frameInit h clock s.control s.cursor msg).2
          - (frameInit h clock s.control s.cursor msg).1.t0_ : ℤ) : ℚ) / 1000000 ∧
    GetControl h clock (n + 1) s.control s.cursor msg
      = (if ((clock (frameInit h clock s.control s.cursor msg).2
              - (frameInit h clock s.control s.cursor msg).1.t0_ : ℤ) : ℚ) / 1000000
            ≤ traj.GetMaxTime then
          some (s.control.converter_.RadiansToServoCommands
                  (commandInRad traj
                    (((clock (frameInit h clock s.control s.cursor msg).2
                      - (frameInit h clock s.control s.cursor msg).1.t0_ : ℤ) : ℚ) / 1000000)
                    (unwrappedState h (frameInit h clock s.control s.cursor msg).1 msg)),
                passState h clock s.control s.cursor msg,
                (frameInit h clock s.control s.cursor msg).2 + 1)
        else
          GetControl h clock n
            (SetTrajectory (passState h clock s.control s.cursor msg)
              s.control.stable_controller_)
            ((frameInit h clock s.control s.cursor msg).2 + 1) msg) ∧
    (s.control.state_initialized_ = true →
      (frameInit h clock s.control s.cursor msg).2 = s.cursor ∧
      (frameInit h clock s.control s.cursor msg).1.t0_ = s.control.t0_) ∧
    (s.control.state_initialized_ = false →
      (frameInit h clock s.control s.cursor msg).2 = s.cursor + 1 ∧
      (frameInit h clock s.control s.cursor msg).1.t0_ = clock s.cursor) ∧
    (Monotone clock → 0 ≤ (tAlong h clock traj s.control s.cursor msg).1) ∧
    (s.control.state_initialized_ = false → clock (s.cursor + 1) = clock s.cursor →
      (tAlong h clock traj s.control s.cursor msg).1 = 0) := by
  have hpast := runCalls_t0_past h clock fuel calls _ s
    (by intro hinit; simp [constructed, TvlqrControl.new] at hinit) hrun
  have hfalse : s.control.state_initialized_ = false →
      (frameInit h clock s.control s.cursor msg).2 = s.cursor + 1 ∧
      (frameInit h clock s.control s.cursor msg).1.t0_ = clock s.cursor := by
    intro hinit
    rw [frameInit_of_uninitialized h clock _ _ msg hinit]
    exact ⟨rfl, rfl⟩
  have htrue : s.control.state_initialized_ = true →
      (frameInit h clock s.control s.cursor msg).2 = s.cursor ∧
      (frameInit h clock s.control s.cursor msg).1.t0_ = s.control.t0_ := by
    intro hinit
    rw [frameInit_of_initialized h clock _ _ msg hinit]
    exact ⟨rfl, rfl⟩
  have hreading : ∃ i : ℕ, i ≤ (frameInit h clock s.control s.cursor msg).2 ∧
      (frameInit h clock s.control s.cursor msg).1.t0_ = clock i := by
    cases hinit : s.control.state_initialized_ with
    | false =>
      obtain ⟨h1, h2⟩ := hfalse hinit
      exact ⟨s.cursor, by omega, h2⟩
    | true =>
      obtain ⟨h1, h2⟩ := htrue hinit
      obtain ⟨i, hi1, hi2⟩ := hpast hinit
      exact ⟨i, by omega, h2.trans hi2⟩
  obtain ⟨i, hi, ht0⟩ := hreading
  have hnow := hrange _ (le_refl _)
  have hthen := hrange i hi
  have hw : wrapInt64 (clock (frameInit h clock s.control s.cursor msg).2
      - (frameInit h clock s.control s.cursor msg).1.t0_)
      = clock (frameInit h clock s.control s.cursor msg).2
        - (frameInit h clock s.control s.cursor msg).1.t0_ := by
    apply wrapInt64_of_fits <;> rw [ht0] <;> omega
  have hpair : tAlong h clock traj s.control s.cursor msg
      = (((clock (frameInit h clock s.control s.cursor msg).2
          - (frameInit h clock s.control s.cursor msg).1.t0_ : ℤ) : ℚ) / 1000000,
        (frameInit h clock s.control s.cursor msg).2 + 1) := by
    simp only [tAlong, hTV, GetTNow, passState]
    simp only [Bool.false_eq_true, if_false]
    rw [hw]
  have ht : (tAlong h clock traj s.control s.cursor msg).1
      = ((clock (frameInit h clock s.control s.cursor msg).2
          - (frameInit h clock s.control s.cursor msg).1.t0_ : ℤ) : ℚ) / 1000000 := by
    rw [hpair]
  refine ⟨ht, ?_, htrue, hfalse, fun hmono => ?_, fun hinit hsame => ?_⟩
  · rw [GetControl_pass h clock n s.control s.cursor msg traj hcur, hpair]
  · rw [ht]
    apply div_nonneg
    · have : clock i ≤ clock (frameInit h clock s.control s.cursor msg).2 := hmono hi
      rw [ht0]
      exact_mod_cast sub_nonneg.mpr this
    · norm_num
  · obtain ⟨h1, h2⟩ := hfalse hinit
    rw [ht, h1, h2, hsame]
    simp

/-- Witness for C15: after construction, `SetTrajectory` of a time-varying trajectory
and a first `GetControl` (frame captured at reading 0), the next call reads the clock
at 2 s: time-along-trajectory is 2. -/
theorem timeVarying_time_along_trajectory_witness :
    ∃ s, runCalls specHelpers exampleClock 1
        [Call.setTrajectory (exampleTrajectory false 1), Call.getControl examplePose]
        (constructed exampleConverter (exampleTrajectory true 0) (fun _ _ => 0) 0) = some s ∧
      (tAlong specHelpers exampleClock (exampleTrajectory false 1) s.control s.cursor
        exampleMovedPose).1 = 2 :=
  ⟨_, exampleRun_timeVarying,
    (timeVarying_time_along_trajectory specHelpers exampleClock 1 0 exampleConverter
      (exampleTrajectory true 0) (fun _ _ => 0) 0 _ _ exampleMovedPose (exampleTrajectory false 1)
      exampleRun_timeVarying rfl rfl
      (by
        intro j hj
        have hj2 : j ≤ 2 := hj
        simp only [exampleClock]
        constructor <;> omega)).1.trans
      (by norm_num [frameInit, capturedControl, exampleClock])⟩

/-- With a time-invariant active trajectory and a time-invariant stabilizing
trajectory, the command of a `GetControl` call that returns is one value fixed by the
controller and the pose, whatever the clock, the cursor and the nesting depth. -/
theorem GetControl_timeInvariant_command (h : Helpers) (self : TvlqrControl) (msg : mav_pose_t)
    (traj : Trajectory) (hcur : self.current_trajectory_ = some traj)
    (hTI : traj.IsTimeInvariant = true)
    (hstab : self.stable_controller_.IsTimeInvariant = true) :
    ∃ A : VectorXi, ∀ (clock : ℕ → ℤ) (fuel k : ℕ) (r : VectorXi × TvlqrControl × ℕ),
      GetControl h clock fuel self k msg = some r → r.1 = A := by
  by_cases hmax : 0 ≤ traj.GetMaxTime
  · refine ⟨self.converter_.RadiansToServoCommands
      (commandInRad traj 0 (unwrappedState h (frameInit h (fun _ => 0) self 0 msg).1 msg)), ?_⟩
    intro clock fuel k r hret
    cases fuel with
    | zero => simp [GetControl] at hret
    | succ n =>
      rw [GetControl_pass h clock n self k msg traj hcur,
        tAlong_timeInvariant h clock traj self k msg hTI, if_pos hmax] at hret
      cases hret
      simp only [unwrappedState_clock_independent h clock (fun _ => 0) self k 0 msg]
  · refine ⟨self.converter_.RadiansToServoCommands (commandInRad self.stable_controller_ 0
      (capturedControl h self 0 msg).last_state_), ?_⟩
    intro clock fuel k r hret
    cases fuel with
    | zero => simp [GetControl] at hret
    | succ n =>
      rw [GetControl_pass h clock n self k msg traj hcur,
        tAlong_timeInvariant h clock traj self k msg hTI, if_neg hmax] at hret
      by_cases hsmax : 0 ≤ self.stable_controller_.GetMaxTime
      · cases n with
        | zero => simp [GetControl] at hret
        | succ m =>
          rw [GetControl_fresh_timeInvariant h clock m _ _ msg self.stable_controller_ rfl rfl
            hstab hsmax] at hret
          cases hret
          have hconv : (SetTrajectory (passState h clock self k msg)
              self.stable_controller_).converter_ = self.converter_ :=
            passState_converter h clock self k msg
          simp only [hconv]
          rfl
      · have hstable : (SetTrajectory (passState h clock self k msg)
            self.stable_controller_).stable_controller_ = self.stable_controller_ := by
          unfold passState frameInit InitializeState SetTrajectory
          split <;> rfl
        rw [GetControl_diverges h clock msg self.stable_controller_ hstab (not_le.mp hsmax) n _ _
          rfl hstable] at hret
        simp at hret

/-- C5: for a time-invariant active trajectory (the stabilizing trajectory being
time-invariant, as the spec's data model has it), `GetControl` queries the trajectory
at time-along-trajectory 0 only, on the first pass and after a fallback, and two runs
from the same controller state with the same pose that differ only in the clock
(readings, cursor) return equal commands whenever they return; both return, with one
command, as soon as the active or the stabilizing trajectory has `GetMaxTime() >= 0`. -/
theorem GetControl_timeInvariant_clock_independent (h : Helpers) (clock1 clock2 : ℕ → ℤ)
    (fuel1 fuel2 : ℕ) (self : TvlqrControl) (k1 k2 : ℕ) (msg : mav_pose_t) (traj : Trajectory)
    (hcur : self.current_trajectory_ = some traj)
    (hTI : traj.IsTimeInvariant = true)
    (hstab : self.stable_controller_.IsTimeInvariant = true) :
    (∀ r1 r2 : VectorXi × TvlqrControl × ℕ,
      GetControl h clock1 fuel1 self k1 msg = some r1 →
      GetControl h clock2 fuel2 self k2 msg = some r2 → r1.1 = r2.1) ∧
    ((0 ≤ traj.GetMaxTime ∨ 0 ≤ self.stable_controller_.GetMaxTime) →
      ∃ (cmd : VectorXi) (c1 c2 : TvlqrControl) (j1 j2 : ℕ),
        GetControl h clock1 (fuel1 + 2) self k1 msg = some (cmd, c1, j1) ∧
        GetControl h clock2 (fuel2 + 2) self k2 msg = some (cmd, c2, j2)) ∧
    (0 ≤ traj.GetMaxTime →
      ∃ (c1 : TvlqrControl) (j1 : ℕ), GetControl h clock1 (fuel1 + 1) self k1 msg
        = some (self.converter_.RadiansToServoCommands
            (commandInRad traj 0 (unwrappedState h (frameInit h clock1 self k1 msg).1 msg)),
          c1, j1)) ∧
    (tAlong h clock1 traj self k1 msg).1 = 0 ∧ (tAlong h clock2 traj self k2 msg).1 = 0 ∧
    (∀ (clock : ℕ → ℤ) (c : TvlqrControl) (j : ℕ),
      (tAlong h clock self.stable_controller_ (SetTrajectory c self.stable_controller_) j msg).1
        = 0) := by
  obtain ⟨A, hA⟩ := GetControl_timeInvariant_command h self msg traj hcur hTI hstab
  refine ⟨fun r1 r2 h1 h2 => (hA _ _ _ r1 h1).trans (hA _ _ _ r2 h2).symm, fun hor => ?_,
    fun hmax => ?_, ?_, ?_, fun clock c j => ?_⟩
  · have hret : ∀ (clock : ℕ → ℤ) (fuel k : ℕ),
        ∃ r, GetControl h clock (fuel + 2) self k msg = some r := by
      intro clock fuel k
      rcases hor with hmax | hsmax
      · exact ⟨_, by
          rw [GetControl_pass h clock (fuel + 1) self k msg traj hcur,
            tAlong_timeInvariant h clock traj self k msg hTI, if_pos hmax]⟩
      · obtain ⟨r, hr⟩ := GetControl_returns_of_stabilizer h clock self k msg hstab hsmax
        exact ⟨r, hr fuel⟩
    obtain ⟨r1, hr1⟩ := hret clock1 fuel1 k1
    obtain ⟨r2, hr2⟩ := hret clock2 fuel2 k2
    have e1 := hA _ _ _ r1 hr1
    have e2 := hA _ _ _ r2 hr2
    refine ⟨A, r1.2.1, r2.2.1, r1.2.2, r2.2.2, ?_, ?_⟩
    · rw [hr1, ← e1]
    · rw [hr2, ← e2]
  · exact ⟨_, _, by
      rw [GetControl_pass h clock1 fuel1 self k1 msg traj hcur,
        tAlong_timeInvariant h clock1 traj self k1 msg hTI, if_pos hmax]⟩
  · rw [tAlong_timeInvariant h clock1 traj self k1 msg hTI]
  · rw [tAlong_timeInvariant h clock2 traj self k2 msg hTI]
  · rw [tAlong_timeInvariant h clock _ _ j msg hstab]

/-- Witness for C5: a time-invariant trajectory with `GetMaxTime() = -1` over a
time-invariant stabilizing trajectory with maximum time 0, under the clocks of one
and of two seconds per reading: both runs fall back and return one command. -/
theorem GetControl_timeInvariant_clock_independent_witness :
    ∃ (cmd : VectorXi) (c1 c2 : TvlqrControl) (j1 j2 : ℕ),
      GetControl specHelpers exampleClock 2
        (exampleTracking (exampleTrajectory true (-1)) (exampleTrajectory true 0)) 0 examplePose
        = some (cmd, c1, j1) ∧
      GetControl specHelpers (fun k => 2000000 * (k : ℤ)) 2
        (exampleTracking (exampleTrajectory true (-1)) (exampleTrajectory true 0)) 0 examplePose
        = some (cmd, c2, j2) :=
  (GetControl_timeInvariant_clock_independent specHelpers exampleClock
    (fun k => 2000000 * (k : ℤ)) 0 0
    (exampleTracking (exampleTrajectory true (-1)) (exampleTrajectory true 0)) 0 0 examplePose
    (exampleTrajectory true (-1)) rfl rfl rfl).2.1
    (Or.inr (by simp [exampleTracking, exampleControl, TvlqrControl.new, SetTrajectory,
      exampleTrajectory]))

/-- The inner product of a row and a vector of one size is the sum of the products of
their entries. -/
theorem dot_eq_sum : ∀ (n : ℕ) (row v : VectorXd), row.length = n → v.length = n →
    dot row v = Finset.sum (Finset.range n) (fun j => row.getD j 0 * v.getD j 0) := by
  intro n
  induction n with
  | zero =>
    intro row v hr hv
    rw [List.length_eq_zero] at hr hv
    simp [dot, hr, hv]
  | succ m ih =>
    intro row v hr hv
    cases row with
    | nil => simp at hr
    | cons a row =>
      cases v with
      | nil => simp at hv
      | cons b v =>
        have hrec := ih row v (by simpa using hr) (by simpa using hv)
        simp only [dot, List.zipWith_cons_cons, List.sum_cons] at hrec ⊢
        rw [Finset.sum_range_succ', hrec]
        simp [add_comm]

/-- The entries of a difference of two vectors of one size. -/
theorem vsub_getD : ∀ (a b : VectorXd), a.length = b.length → ∀ j : ℕ,
    (vsub a b).getD j 0 = a.getD j 0 - b.getD j 0 := by
  intro a
  induction a with
  | nil =>
    intro b hlen j
    have hb : b = [] := List.length_eq_zero.mp hlen.symm
    simp [vsub, hb]
  | cons x a ih =>
    intro b hlen j
    cases b with
    | nil => simp at hlen
    | cons y b =>
      cases j with
      | zero => simp [vsub]
      | succ j =>
        have := ih b (by simpa using hlen) j
        simpa [vsub] using this

/-- The size of a difference of two vectors of one size. -/
theorem vsub_length (a b : VectorXd) (hlen : a.length = b.length) :
    (vsub a b).length = a.length := by
  simp [vsub, hlen]

/-- The sum of a vector and a matrix-vector product, entry by entry, when the vector
has one entry per matrix row. -/
theorem vadd_mulVec_eq_map : ∀ (K : MatrixXd) (u e : VectorXd), u.length = K.length →
    vadd u (mulVec K e)
      = (List.range K.length).map (fun i => u.getD i 0 + dot (K.getD i []) e) := by
  intro K
  induction K with
  | nil =>
    intro u e hlen
    have hu : u = [] := List.length_eq_zero.mp hlen
    simp [vadd, mulVec, hu]
  | cons row K ih =>
    intro u e hlen
    cases u with
    | nil => simp at hlen
    | cons a u =>
      have hrec := ih u e (by simpa using hlen)
      simp only [vadd, mulVec, List.map_cons, List.zipWith_cons_cons, List.length_cons] at hrec ⊢
      rw [List.range_succ_eq_map, List.map_cons, List.map_map, hrec]
      simp [Function.comp_def]

/-- The unwrapped state, entry by entry: `AngleUnwrap` of the raw entry against the
previous frame state at the indices 3, 4, 5, the raw entry elsewhere. -/
theorem unwrappedState_eq_map (h : Helpers) (c : TvlqrControl) (msg : mav_pose_t) :
    unwrappedState h c msg
      = (List.range (GetStateMinusInit h c msg).length).map (fun j =>
          if j = 3 ∨ j = 4 ∨ j = 5 then
            h.AngleUnwrap ((GetStateMinusInit h c msg).getD j 0) (c.last_state_.getD j 0)
          else (GetStateMinusInit h c msg).getD j 0) := by
  apply List.ext_getElem?
  intro i
  rw [unwrappedState_getElem? h c msg i, List.getElem?_map]
  by_cases hlt : i < (GetStateMinusInit h c msg).length
  · rw [List.getElem?_range hlt]
    by_cases hi : i = 3 ∨ i = 4 ∨ i = 5
    · simp [hi, hlt]
    · simp [hi, hlt, List.getD_eq_getElem?_getD]
  · have hnone : (List.range (GetStateMinusInit h c msg).length)[i]? = none := by
      simp [List.getElem?_eq_none_iff]
      omega
    rw [hnone]
    by_cases hi : i = 3 ∨ i = 4 ∨ i = 5
    · simp [hi, hlt]
    · have : (GetStateMinusInit h c msg)[i]? = none := by
        simp [List.getElem?_eq_none_iff]
        omega
      simp [hi, this]

/-- C2: with a non-null active trajectory and time-along-trajectory `t` not above its
`GetMaxTime()`, `GetControl` returns
`RadiansToServoCommands(GetUCommand(t) + GetGainMatrix(t) * (s - GetState(t)))` with all
three queries at the same `t`.  Spelled out entry by entry, for matching sizes: command
entry `i` is `u(i) + sum over j of K(i,j) * (s(j) - x0(j))`; `s` is the frame-relative
state after unwrapping, i.e. `raw(j)` for `j` outside {3,4,5} and
`AngleUnwrap(raw(j), last_state_(j))` for `j` in {3,4,5}, where `raw` is
`PoseMsgToStateEstimatorVector` of the pose with the captured origin subtracted from
its position, under the captured rotation `Mz_`; the controller afterwards is the
framed controller with `last_state_ = s`. -/
theorem GetControl_within_horizon (h : Helpers) (clock : ℕ → ℤ) (fuel : ℕ)
    (self : TvlqrControl) (k : ℕ) (msg : mav_pose_t) (traj : Trajectory)
    (t : ℚ) (raw s x0 u : VectorXd) (K : MatrixXd)
    (hcur : self.current_trajectory_ = some traj)
    (ht : t = (tAlong h clock traj self k msg).1)
    (hle : t ≤ traj.GetMaxTime)
    (hraw : raw = h.PoseMsgToStateEstimatorVectorMz
      { msg with
          pos := (msg.pos.1 - (frameInit h clock self k msg).1.initial_state_.getD 0 0,
                  msg.pos.2.1 - (frameInit h clock self k msg).1.initial_state_.getD 1 0,
                  msg.pos.2.2 - (frameInit h clock self k msg).1.initial_state_.getD 2 0) }
      (frameInit h clock self k msg).1.Mz_)
    (hs : s = (List.range raw.length).map (fun j =>
      if j = 3 ∨ j = 4 ∨ j = 5 then
        h.AngleUnwrap (raw.getD j 0) ((frameInit h clock self k msg).1.last_state_.getD j 0)
      else raw.getD j 0))
    (hx0 : x0 = traj.GetState t) (hK : K = traj.GetGainMatrix t) (hu : u = traj.GetUCommand t)
    (hdimx : x0.length = raw.length) (hdimK : ∀ row ∈ K, row.length = raw.length)
    (hdimu : u.length = K.length) :
    GetControl h clock (fuel + 1) self k msg
      = some (self.converter_.RadiansToServoCommands
                ((List.range K.length).map (fun i =>
                  u.getD i 0 + Finset.sum (Finset.range raw.length)
                    (fun j => (K.getD i []).getD j 0 * (s.getD j 0 - x0.getD j 0)))),
              { (frameInit h clock self k msg).1 with last_state_ := s },
              (tAlong h clock traj self k msg).2) := by
  have hstate : unwrappedState h (frameInit h clock self k msg).1 msg = s := by
    rw [unwrappedState_eq_map, hs, hraw]
    rfl
  have hslen : s.length = raw.length := by
    rw [hs]
    simp
  have hcmd : commandInRad traj t s
      = (List.range K.length).map (fun i =>
          u.getD i 0 + Finset.sum (Finset.range raw.length)
            (fun j => (K.getD i []).getD j 0 * (s.getD j 0 - x0.getD j 0))) := by
    rw [commandInRad, ← hu, ← hK, ← hx0, vadd_mulVec_eq_map K u (vsub s x0) hdimu]
    apply List.map_congr_left
    intro i hi
    have hilt : i < K.length := List.mem_range.mp hi
    have hrow : (K.getD i []).length = raw.length := by
      apply hdimK
      rw [List.getD_eq_getElem _ _ hilt]
      exact List.getElem_mem hilt
    have hsx : s.length = x0.length := by rw [hslen, hdimx]
    rw [dot_eq_sum raw.length (K.getD i []) (vsub s x0) hrow
      (by rw [vsub_length s x0 hsx, hslen])]
    congr 1
    apply Finset.sum_congr rfl
    intro j _
    rw [vsub_getD s x0 hsx j]
  rw [GetControl_pass h clock fuel self k msg traj hcur, ← ht, if_pos hle, hstate, hcmd]
  simp only [passState, hstate]

/-- The spec model of `AngleUnwrap` across the wrap: the raw angle `-M_PI + 1/10`
against the previous angle `M_PI - 1/10` is `M_PI + 1/10`. -/
theorem specAngleUnwrap_across_wrap :
    specAngleUnwrap (2 * M_PI) (-M_PI + 1 / 10) (M_PI - 1 / 10) = M_PI + 1 / 10 := by
  have hr : round ((-M_PI + 1 / 10 - (M_PI - 1 / 10)) / (2 * M_PI)) = -1 := by
    rw [round_eq, Int.floor_eq_iff]
    norm_num [M_PI]
  rw [specAngleUnwrap, hr]
  push_cast
  ring

/-- The example controller of the witness for C2: frame captured at the example pose
rolled by `M_PI - 1/10`; the stored previous roll is `M_PI - 1/10`. -/
theorem exampleFeedback_last_state :
    (capturedControl specHelpers
      (exampleTracking exampleFeedbackTrajectory (exampleTrajectory true 0)) 0
      (exampleRolledPose (M_PI - 1 / 10))).last_state_ = [0, 0, 0, M_PI - 1 / 10, 0, 0] := by
  norm_num [capturedControl, unwrappedState, GetStateMinusInit, specHelpers, specAngleUnwrap,
    exampleRolledPose, examplePose]
  ring

/-- Witness for C2: a controller that captured its frame at position (1, 2, 3), roll
`M_PI - 1/10`, receives the pose at (7, 8, 9) with raw roll `-M_PI + 1/10`.  The
frame-relative state is (6, 6, 6, `M_PI + 1/10`, 0, 0) after unwrapping, the raw
command is (`35 + 4 * (M_PI + 1/10)`, `7 + M_PI + 1/10`) and the converter rounds it
down to (47, 10). -/
theorem GetControl_within_horizon_witness :
    GetControl specHelpers exampleClock 1
        (capturedControl specHelpers
          (exampleTracking exampleFeedbackTrajectory (exampleTrajectory true 0)) 0
          (exampleRolledPose (M_PI - 1 / 10)))
        1 (exampleMovedRolledPose (-M_PI + 1 / 10))
      = some ([47, 10],
          { capturedControl specHelpers
              (exampleTracking exampleFeedbackTrajectory (exampleTrajectory true 0)) 0
              (exampleRolledPose (M_PI - 1 / 10)) with
            last_state_ := [6, 6, 6, M_PI + 1 / 10, 0, 0] }, 1) := by
  have hF : frameInit specHelpers exampleClock
      (capturedControl specHelpers
        (exampleTracking exampleFeedbackTrajectory (exampleTrajectory true 0)) 0
        (exampleRolledPose (M_PI - 1 / 10))) 1 (exampleMovedRolledPose (-M_PI + 1 / 10))
      = (capturedControl specHelpers
        (exampleTracking exampleFeedbackTrajectory (exampleTrajectory true 0)) 0
        (exampleRolledPose (M_PI - 1 / 10)), 1) :=
    frameInit_of_initialized _ _ _ _ _ rfl
  have key := GetControl_within_horizon specHelpers exampleClock 0
    (capturedControl specHelpers
      (exampleTracking exampleFeedbackTrajectory (exampleTrajectory true 0)) 0
      (exampleRolledPose (M_PI - 1 / 10)))
    1 (exampleMovedRolledPose (-M_PI + 1 / 10)) exampleFeedbackTrajectory 0
    [6, 6, 6, -M_PI + 1 / 10, 0, 0] [6, 6, 6, M_PI + 1 / 10, 0, 0] [1, 1, 1, 0, 0, 0] [5, 7]
    [[1, 2, 3, 4, 5, 6], [0, 0, 0, 1, 0, 0]] rfl
    (by simp [tAlong, exampleFeedbackTrajectory])
    (by simp [exampleFeedbackTrajectory])
    (by
      rw [hF]
      norm_num [capturedControl, specHelpers, exampleMovedRolledPose, exampleRolledPose,
        examplePose]
      refine ⟨by decide, by decide, ?_, by ring⟩
      rw [if_neg (by decide), if_neg (by decide)]
      norm_num)
    (by
      rw [hF, exampleFeedback_last_state]
      have hA : specHelpers.AngleUnwrap = specAngleUnwrap (2 * M_PI) := rfl
      have hZ : specAngleUnwrap (2 * M_PI) 0 0 = 0 := by simp [specAngleUnwrap]
      rw [hA]
      simp only [List.range_succ, List.range_zero, List.length_cons, List.length_nil,
        List.nil_append, List.cons_append, List.map_cons, List.map_nil, List.getD_cons_zero,
        List.getD_cons_succ, zero_add]
      rw [specAngleUnwrap_across_wrap, hZ]
      norm_num)
    rfl rfl rfl rfl
    (by
      intro row hrow
      simp at hrow
      rcases hrow with rfl | rfl <;> rfl)
    rfl
  rw [key, tAlong_timeInvariant _ _ _ _ _ _ rfl, hF]
  simp only [Option.some.injEq, Prod.mk.injEq]
  refine ⟨?_, trivial⟩
  simp [exampleConverter, capturedControl, exampleTracking,
    exampleControl, TvlqrControl.new, SetTrajectory, List.range_succ, Finset.sum_range_succ]
  constructor
  · rw [show (47 : ℤ) = 5 + 42 from rfl, add_right_inj, Int.floor_eq_iff]
    norm_num [M_PI]
  · rw [show (10 : ℤ) = 7 + 3 from rfl, add_right_inj, Int.floor_eq_iff]
    norm_num [M_PI]

end Tvlqr
